import Mathlib

/-!
# Psychro Chart Studio — curve generation and coordinate mapping, verified model

Shallow embedding of the curve-generation and coordinate-transform core of the
repository (module `lib/psychrometrics.ts` and the scale/zoom logic of
`components/psychro-chart.tsx`).

Modelling conventions:

* JavaScript numbers are modelled as exact rationals `ℚ`.  A value that may be
  non-finite (`NaN` / `±Infinity`) is modelled as `Option ℚ`, with `none`
  standing for any non-finite number; everywhere the source compares a
  possibly-non-finite number against finite bounds, all three non-finite
  values behave identically, so the collapse is faithful.
* The external `psychrolib` property solver is an opaque collaborator.  It is
  modelled as a structure of functions returning `Except Unit (Option ℚ)`:
  `.error ()` models a thrown exception, `.ok none` a non-finite result and
  `.ok (some q)` a finite result.  The `withUnitSystem` global-mode pattern of
  the source is modelled by passing the solver (already fixed to a unit
  system) as an explicit argument.
* JS numeric-to-string formatting in curve ids/labels is abstracted by
  `numStr`; no claim depends on the exact digits produced.
-/

/-- Result of one solver call: `.error ()` models a thrown exception,
`.ok none` a non-finite (`NaN`/`±Infinity`) return value, `.ok (some q)` a
finite return value. -/
abbrev SolverResult := Except Unit (Option ℚ)

/-- The `psychrolib` property solver, abstracted (external collaborator,
already fixed to one unit system as `withUnitSystem` does in the source).
Arguments that the source code may feed a possibly-non-finite number are
typed `Option ℚ`. -/
structure Solver where
  GetHumRatioFromRelHum : ℚ → ℚ → ℚ → SolverResult
  GetHumRatioFromTWetBulb : ℚ → ℚ → ℚ → SolverResult
  GetTWetBulbFromHumRatio : ℚ → Option ℚ → ℚ → SolverResult
  GetTDewPointFromHumRatio : ℚ → Option ℚ → ℚ → SolverResult
  GetMoistAirEnthalpy : ℚ → Option ℚ → SolverResult
  GetMoistAirVolume : ℚ → Option ℚ → ℚ → SolverResult
  GetMoistAirDensity : ℚ → Option ℚ → ℚ → SolverResult
  GetVapPresFromHumRatio : Option ℚ → ℚ → SolverResult
  GetSatHumRatio : ℚ → ℚ → SolverResult
  GetTDryBulbFromEnthalpyAndHumRatio : ℚ → ℚ → SolverResult

/-- `UnitSystem` from `lib/psychrometrics.ts`: `"si" | "ip"`. -/
inductive UnitSystem where
  | si
  | ip
deriving DecidableEq

/-- `ChartExtents` from `lib/psychrometrics.ts`. -/
structure ChartExtents where
  dryBulb : ℚ × ℚ
  humidityRatio : ℚ × ℚ
  enthalpy : ℚ × ℚ

/-- `DEFAULT_EXTENTS` table from `lib/psychrometrics.ts`. -/
def DEFAULT_EXTENTS : UnitSystem → ChartExtents
  | .si => { dryBulb := (-20, 60), humidityRatio := (0, 35/1000), enthalpy := (-20, 120) }
  | .ip => { dryBulb := (-4, 140), humidityRatio := (0, 3/100), enthalpy := (-10, 55) }

/-- `getChartExtents` from `lib/psychrometrics.ts`. -/
def getChartExtents (system : UnitSystem) : ChartExtents :=
  DEFAULT_EXTENTS system

/-- The `clamp` helper of `lib/psychrometrics.ts`:
`Math.min(Math.max(value, min), max)`. -/
def clampQ (value lo hi : ℚ) : ℚ :=
  min (max value lo) hi

/-- Kernel-computable floor of a rational (`Rat.floor_def`: `⌊q⌋ = q.num / q.den`). -/
def ratFloor (q : ℚ) : ℤ :=
  q.num / q.den

/-- Kernel-computable ceiling of a rational. -/
def ratCeil (q : ℚ) : ℤ :=
  -ratFloor (-q)

/-- JS `Math.round`: round half toward positive infinity. -/
def jsRound (q : ℚ) : ℤ :=
  ratFloor (q + 1/2)

/-- `Number(x.toFixed(d))`: round to `d` decimal digits.  (For every value the
chart component feeds it, the rounding is exact, so half-way behaviour is
immaterial.) -/
def roundTo (d : ℕ) (q : ℚ) : ℚ :=
  (jsRound (q * 10 ^ d) : ℚ) / 10 ^ d

/-- JS number-to-string coercion, abstracted: the exact digit string is
immaterial to every claim. `none` (non-finite) prints as `NaN`. -/
def numStr : Option ℚ → String
  | none => "NaN"
  | some q => toString q

/-- The samples visited by the loop `for (let t = lo; t <= hi; t += step)`
under exact arithmetic: `lo, lo + step, …` while `≤ hi`.  For `0 < step` and
`lo ≤ hi` these are `lo + n·step` for `0 ≤ n ≤ ⌊(hi - lo)/step⌋`. -/
def sampleSeq (lo hi step : ℚ) : List ℚ :=
  (List.range (if lo ≤ hi then (ratFloor ((hi - lo) / step)).toNat + 1 else 0)).map
    (fun (n : ℕ) => lo + (n : ℚ) * step)

/-- The samples visited by the strict-bound loop
`for (let v = lo; v < hi; v += step)` under exact arithmetic. -/
def strideLt (lo hi step : ℚ) : List ℚ :=
  (List.range (if lo < hi then (ratCeil ((hi - lo) / step)).toNat else 0)).map
    (fun (n : ℕ) => lo + (n : ℚ) * step)

/-- `CurvePoint` from `lib/psychrometrics.ts`.  `dryBulb` is always a finite
number in the source (a loop variable or range-checked), hence `ℚ`; the other
two fields are stored straight from solver output and may be non-finite. -/
structure CurvePoint where
  dryBulb : ℚ
  humidityRatio : Option ℚ
  enthalpy : Option ℚ
deriving DecidableEq

/-- `Curve` from `lib/psychrometrics.ts`.  `level` is `Option ℚ` because the
wet-bulb and specific-volume generators accept (and echo back) non-finite
target levels. -/
structure Curve where
  id : String
  label : String
  level : Option ℚ
  points : List CurvePoint
deriving DecidableEq

/-- `SaturationCurve` from `lib/psychrometrics.ts` (no `level` field). -/
structure SaturationCurve where
  id : String
  label : String
  points : List CurvePoint
deriving DecidableEq

/-- The shared shape of every generator loop: each sample is processed inside
`try { … points.push(pt) } catch { continue }`, where the body may also skip
without pushing (`.ok none`).  A thrown error (`.error`) likewise drops only
that sample. -/
def runSamples {α : Type} (f : ℚ → Except Unit (Option α)) (ts : List ℚ) : List α :=
  ts.foldl
    (fun acc t =>
      match f t with
      | .ok (some pt) => acc ++ [pt]
      | .ok none => acc
      | .error _ => acc)
    []

/-- The `try`-block body of one `generateSaturationCurve` sample
(`lib/psychrometrics.ts` lines 1176–1183): query `GetSatHumRatio`, then
`GetMoistAirEnthalpy`, and push the point.  Note that the source checks
neither result for finiteness: only a thrown error skips the sample. -/
def satSample (S : Solver) (pressure t : ℚ) : Except Unit (Option CurvePoint) :=
  match S.GetSatHumRatio t pressure with
  | .error e => .error e
  | .ok w =>
    match S.GetMoistAirEnthalpy t w with
    | .error e => .error e
    | .ok h => .ok (some { dryBulb := t, humidityRatio := w, enthalpy := h })

/-- `generateSaturationCurve` from `lib/psychrometrics.ts` (lines 1168–1191). -/
def generateSaturationCurve (S : Solver) (_system : UnitSystem) (pressure : ℚ)
    (dryBulbRange : ℚ × ℚ) (step : ℚ) : SaturationCurve :=
  { id := "saturation"
    label := "100% RH"
    points := runSamples (satSample S pressure) (sampleSeq dryBulbRange.1 dryBulbRange.2 step) }

/-- The `try`-block body of one `generateRelativeHumidityCurves` sample
(`lib/psychrometrics.ts` lines 979–985).  As in the saturation curve, only a
thrown error skips the sample; a non-finite humidity ratio is pushed. -/
def rhSample (S : Solver) (level pressure t : ℚ) : Except Unit (Option CurvePoint) :=
  match S.GetHumRatioFromRelHum t level pressure with
  | .error e => .error e
  | .ok w =>
    match S.GetMoistAirEnthalpy t w with
    | .error e => .error e
    | .ok h => .ok (some { dryBulb := t, humidityRatio := w, enthalpy := h })

/-- `generateRelativeHumidityCurves` from `lib/psychrometrics.ts`
(lines 968–995).  RH levels are finite numbers in every call site, so the
level list is `List ℚ`. -/
def generateRelativeHumidityCurves (S : Solver) (_system : UnitSystem) (pressure : ℚ)
    (dryBulbRange : ℚ × ℚ) (levels : List ℚ) (step : ℚ) : List Curve :=
  levels.map fun level =>
    { id := "rh-" ++ toString (jsRound (level * 100))
      label := toString (jsRound (level * 100)) ++ "% RH"
      level := some level
      points := runSamples (rhSample S level pressure) (sampleSeq dryBulbRange.1 dryBulbRange.2 step) }

/-- The `try`-block body of one `generateEnthalpyLines` sample
(`lib/psychrometrics.ts` lines 1012–1022): invert the enthalpy relation and
keep the point only if the resulting dry-bulb lies inside the requested
range.  A non-finite dry-bulb fails the range test (`NaN` fails both
comparisons, `±Infinity` fails one), so it is never kept. -/
def enthalpySample (S : Solver) (enthalpyTarget lo hi w : ℚ) :
    Except Unit (Option CurvePoint) :=
  match S.GetTDryBulbFromEnthalpyAndHumRatio enthalpyTarget w with
  | .error e => .error e
  | .ok (some tq) =>
    if lo ≤ tq ∧ tq ≤ hi then
      .ok (some { dryBulb := tq, humidityRatio := some w, enthalpy := some enthalpyTarget })
    else
      .ok none
  | .ok none => .ok none

/-- `generateEnthalpyLines` from `lib/psychrometrics.ts` (lines 997–1032): the
loop variable is the humidity ratio, from `0` to `0.06` in `step` increments. -/
def generateEnthalpyLines (S : Solver) (system : UnitSystem) (_pressure : ℚ)
    (dryBulbRange : ℚ × ℚ) (enthalpyValues : List ℚ) (step : ℚ) : List Curve :=
  enthalpyValues.map fun enthalpyTarget =>
    { id := "h-" ++ toString (jsRound enthalpyTarget)
      label := toString (jsRound enthalpyTarget) ++
        (if system = .si then " kJ/kg" else " Btu/lb")
      level := some enthalpyTarget
      points := runSamples (enthalpySample S enthalpyTarget dryBulbRange.1 dryBulbRange.2)
        (sampleSeq 0 (6/100) step) }

/-- The `try`-block body of one `generateWetBulbLines` sample
(`lib/psychrometrics.ts` lines 1059–1073): here the source does check
`Number.isFinite(humidityRatio)` and `continue`s on a non-finite result. -/
def wetBulbSample (S : Solver) (wetBulbTarget pressure t : ℚ) :
    Except Unit (Option CurvePoint) :=
  match S.GetHumRatioFromTWetBulb t wetBulbTarget pressure with
  | .error e => .error e
  | .ok none => .ok none
  | .ok (some wq) =>
    match S.GetMoistAirEnthalpy t (some wq) with
    | .error e => .error e
    | .ok h => .ok (some { dryBulb := t, humidityRatio := some wq, enthalpy := h })

/-- `generateWetBulbLines` from `lib/psychrometrics.ts` (lines 1038–1083).
A non-finite target (`none`) short-circuits to an empty curve; a finite
target starts sampling at `max(target, lo)`. -/
def generateWetBulbLines (S : Solver) (_system : UnitSystem) (pressure : ℚ)
    (dryBulbRange : ℚ × ℚ) (wetBulbValues : List (Option ℚ)) (step : ℚ) : List Curve :=
  wetBulbValues.map fun wetBulbTarget =>
    match wetBulbTarget with
    | none =>
      { id := "tw-" ++ numStr none, label := numStr none, level := none, points := [] }
    | some target =>
      { id := "tw-" ++ numStr (some target)
        label := numStr (some target) ++ "°"
        level := some target
        points := runSamples (wetBulbSample S target pressure)
          (sampleSeq (max target dryBulbRange.1) dryBulbRange.2 step) }

/-- The bisection loop of `generateSpecificVolumeLines`
(`lib/psychrometrics.ts` lines 1119–1140), with the iteration budget as fuel.
State: `low`, `high` bracket and the running `humidityRatio` best estimate
(initially `satHum`).  A thrown `GetMoistAirVolume` propagates (to the
enclosing `catch`); a non-finite volume `break`s, KEEPING the current
estimate; hitting the tolerance returns the midpoint; otherwise the bracket
halves and the estimate becomes the midpoint. -/
def bisect (S : Solver) (dryBulb pressure targetVolume tolerance : ℚ) :
    ℕ → ℚ → ℚ → ℚ → Except Unit ℚ
  | 0, _, _, hr => .ok hr
  | n + 1, low, high, hr =>
    let mid := (low + high) / 2
    match S.GetMoistAirVolume dryBulb (some mid) pressure with
    | .error e => .error e
    | .ok none => .ok hr
    | .ok (some v) =>
      if |v - targetVolume| ≤ tolerance then .ok mid
      else if v > targetVolume then bisect S dryBulb pressure targetVolume tolerance n low mid mid
      else bisect S dryBulb pressure targetVolume tolerance n mid high mid

/-- Companion to `bisect` with identical control flow, recording whether the
search terminated through the tolerance test (as opposed to running out of
budget or breaking on a non-finite volume). -/
def bisectHit (S : Solver) (dryBulb pressure targetVolume tolerance : ℚ) :
    ℕ → ℚ → ℚ → Bool
  | 0, _, _ => false
  | n + 1, low, high =>
    let mid := (low + high) / 2
    match S.GetMoistAirVolume dryBulb (some mid) pressure with
    | .error _ => false
    | .ok none => false
    | .ok (some v) =>
      if |v - targetVolume| ≤ tolerance then true
      else if v > targetVolume then bisectHit S dryBulb pressure targetVolume tolerance n low mid
      else bisectHit S dryBulb pressure targetVolume tolerance n mid high

/-- The `try`-block body of one `generateSpecificVolumeLines` sample
(`lib/psychrometrics.ts` lines 1114–1150): fetch the saturation humidity
ratio (skip if non-finite or non-positive), run the 25-iteration bisection,
and accept the final estimate iff it lies in `(0, satHum]`. -/
def svSample (S : Solver) (targetVolume pressure tolerance t : ℚ) :
    Except Unit (Option CurvePoint) :=
  match S.GetSatHumRatio t pressure with
  | .error e => .error e
  | .ok none => .ok none
  | .ok (some sh) =>
    if sh ≤ 0 then .ok none
    else
      match bisect S t pressure targetVolume tolerance 25 0 sh sh with
      | .error e => .error e
      | .ok w =>
        if 0 < w ∧ w ≤ sh then
          match S.GetMoistAirEnthalpy t (some w) with
          | .error e => .error e
          | .ok h => .ok (some { dryBulb := t, humidityRatio := some w, enthalpy := h })
        else
          .ok none

/-- `generateSpecificVolumeLines` from `lib/psychrometrics.ts`
(lines 1089–1160).  A non-finite (`none`) or non-positive target
short-circuits to an empty curve. -/
def generateSpecificVolumeLines (S : Solver) (_system : UnitSystem) (pressure : ℚ)
    (dryBulbRange : ℚ × ℚ) (specificVolumeValues : List (Option ℚ))
    (dryBulbStep : ℚ) (tolerance : ℚ := 1/10000) : List Curve :=
  specificVolumeValues.map fun targetVolume =>
    match targetVolume with
    | none =>
      { id := "sv-" ++ numStr none, label := numStr none, level := none, points := [] }
    | some target =>
      if target ≤ 0 then
        { id := "sv-" ++ numStr (some target), label := numStr (some target)
          level := some target, points := [] }
      else
        { id := "sv-" ++ numStr (some target)
          label := numStr (some target)
          level := some target
          points := runSamples (svSample S target pressure tolerance)
            (sampleSeq dryBulbRange.1 dryBulbRange.2 dryBulbStep) }

/-- `PsychroInputs` from `lib/psychrometrics.ts` (finite numeric inputs). -/
structure PsychroInputs where
  pressure : ℚ
  dryBulb : ℚ
  relativeHumidity : ℚ

/-- `PsychroState` from `lib/psychrometrics.ts`.  Solver-produced fields may
be non-finite, hence `Option ℚ`; `dryBulb` echoes the finite input and
`relativeHumidity` is computed by the function itself. -/
structure PsychroState where
  dryBulb : ℚ
  wetBulb : Option ℚ
  dewPoint : Option ℚ
  relativeHumidity : ℚ
  humidityRatio : Option ℚ
  enthalpy : Option ℚ
  specificVolume : Option ℚ
  density : Option ℚ
  vaporPressure : Option ℚ
  saturationHumidityRatio : Option ℚ
deriving DecidableEq

/-- `computePsychrometrics` from `lib/psychrometrics.ts` (lines 828–890):
divide the percentage by 100, clamp to `[0, 1]`, run the solver chain inside
`try`, and return `null` (`none`) if any call throws. -/
def computePsychrometrics (S : Solver) (inputs : PsychroInputs) : Option PsychroState :=
  let relativeHumidityFraction := clampQ (inputs.relativeHumidity / 100) 0 1
  match S.GetHumRatioFromRelHum inputs.dryBulb relativeHumidityFraction inputs.pressure with
  | .error _ => none
  | .ok humidityRatio =>
    match S.GetTWetBulbFromHumRatio inputs.dryBulb humidityRatio inputs.pressure with
    | .error _ => none
    | .ok wetBulb =>
      match S.GetTDewPointFromHumRatio inputs.dryBulb humidityRatio inputs.pressure with
      | .error _ => none
      | .ok dewPoint =>
        match S.GetMoistAirEnthalpy inputs.dryBulb humidityRatio with
        | .error _ => none
        | .ok enthalpy =>
          match S.GetMoistAirVolume inputs.dryBulb humidityRatio inputs.pressure with
          | .error _ => none
          | .ok specificVolume =>
            match S.GetMoistAirDensity inputs.dryBulb humidityRatio inputs.pressure with
            | .error _ => none
            | .ok density =>
              match S.GetVapPresFromHumRatio humidityRatio inputs.pressure with
              | .error _ => none
              | .ok vaporPressure =>
                match S.GetSatHumRatio inputs.dryBulb inputs.pressure with
                | .error _ => none
                | .ok saturationHumidityRatio =>
                  some
                    { dryBulb := inputs.dryBulb
                      wetBulb := wetBulb
                      dewPoint := dewPoint
                      relativeHumidity := relativeHumidityFraction * 100
                      humidityRatio := humidityRatio
                      enthalpy := enthalpy
                      specificVolume := specificVolume
                      density := density
                      vaporPressure := vaporPressure
                      saturationHumidityRatio := saturationHumidityRatio }

/-- `humidityRatioToDisplay` from `lib/psychrometrics.ts` (lines 1193–1198):
`×1000` for SI, `×7000` for IP. -/
def humidityRatioToDisplay (system : UnitSystem) (w : ℚ) : ℚ :=
  if system = .si then w * 1000 else w * 7000

/-- `humidityRatioFromDisplay` from `lib/psychrometrics.ts`
(lines 1200–1205): `÷1000` for SI, `÷7000` for IP. -/
def humidityRatioFromDisplay (system : UnitSystem) (w : ℚ) : ℚ :=
  if system = .si then w / 1000 else w / 7000

/-- Sorted deduplication, the extensional effect of
`Array.from(new Set(list)).sort((a, b) => a - b)` in the chart component:
same members, no duplicates, ascending order (these three properties
determine the list uniquely). -/
def dedupSort (l : List ℚ) : List ℚ :=
  List.insertionSort (· ≤ ·) l.dedup

/-- The base relative-humidity levels of `relativeHumidityLevels` in
`components/psychro-chart.tsx` (lines 119–121). -/
def relativeHumidityBase : List ℚ :=
  [1/10, 2/10, 3/10, 4/10, 5/10, 6/10, 7/10, 8/10, 9/10, 98/100]

/-- `relativeHumidityLevels` from `components/psychro-chart.tsx`
(lines 118–133): base set plus interleaved levels added past the zoom
thresholds 1.8, 3.5, 5. -/
def relativeHumidityLevels (zoomLevel : ℚ) : List ℚ :=
  dedupSort
    (relativeHumidityBase
      ++ (if zoomLevel > 18/10 then (strideLt (5/100) (95/100) (1/10)).map (roundTo 2) else [])
      ++ (if zoomLevel > 35/10 then (strideLt (2/100) (98/100) (4/100)).map (roundTo 2) else [])
      ++ (if zoomLevel > 5 then (strideLt (1/100) (99/100) (2/100)).map (roundTo 2) else []))

/-- The base enthalpy values of `enthalpyValues` in
`components/psychro-chart.tsx` (lines 166–183). -/
def enthalpyBase : UnitSystem → List ℚ
  | .si => [0, 10, 20, 30, 40, 50, 60, 80, 100, 120]
  | .ip => [0, 10, 20, 30, 40, 50]

/-- `enthalpyValues` from `components/psychro-chart.tsx` (lines 166–183). -/
def enthalpyValuesLod (system : UnitSystem) (zoomLevel : ℚ) : List ℚ :=
  dedupSort
    (enthalpyBase system
      ++ (if zoomLevel > 18/10 then (enthalpyBase system).map (· + 5) else [])
      ++ (if zoomLevel > 35/10 then (enthalpyBase system).map (· + 5/2) else []))

/-- The base wet-bulb values of `wetBulbValues` in
`components/psychro-chart.tsx` (lines 199–212). -/
def wetBulbBase : UnitSystem → List ℚ
  | .si => [-10, -5, 0, 5, 10, 15, 20, 25, 30]
  | .ip => [10, 20, 30, 40, 50, 60, 70]

/-- `wetBulbValues` from `components/psychro-chart.tsx` (lines 199–212). -/
def wetBulbValuesLod (system : UnitSystem) (zoomLevel : ℚ) : List ℚ :=
  dedupSort
    (wetBulbBase system
      ++ (if zoomLevel > 18/10 then
            (wetBulbBase system).map (· + (if system = .si then 5/2 else 5)) else [])
      ++ (if zoomLevel > 35/10 then
            (wetBulbBase system).map (· + (if system = .si then 5/4 else 5/2)) else []))

/-- The base specific-volume values of `specificVolumeValues` in
`components/psychro-chart.tsx` (lines 245–262). -/
def specificVolumeBase : UnitSystem → List ℚ
  | .si => [3/4, 8/10, 85/100, 9/10, 95/100, 1, 105/100, 11/10]
  | .ip => [25/2, 13, 27/2, 14, 29/2, 15]

/-- `specificVolumeValues` from `components/psychro-chart.tsx`
(lines 245–262). -/
def specificVolumeValuesLod (system : UnitSystem) (zoomLevel : ℚ) : List ℚ :=
  dedupSort
    (specificVolumeBase system
      ++ (if zoomLevel > 18/10 then
            (specificVolumeBase system).map
              (fun v => roundTo 3 (v + (if system = .si then 25/1000 else 2/10))) else [])
      ++ (if zoomLevel > 35/10 then
            (specificVolumeBase system).map
              (fun v => roundTo 3 (v + (if system = .si then 12/1000 else 1/10))) else []))

/-- A d3 `scaleLinear`: linear map from `[d0, d1]` onto `[r0, r1]`. -/
structure LinScale where
  d0 : ℚ
  d1 : ℚ
  r0 : ℚ
  r1 : ℚ

/-- `scale(v)`: linear interpolation from domain to range. -/
def LinScale.applyS (s : LinScale) (v : ℚ) : ℚ :=
  s.r0 + (v - s.d0) / (s.d1 - s.d0) * (s.r1 - s.r0)

/-- `scale.invert(px)`: linear interpolation from range back to domain. -/
def LinScale.invertS (s : LinScale) (px : ℚ) : ℚ :=
  s.d0 + (px - s.r0) / (s.r1 - s.r0) * (s.d1 - s.d0)

/-- A d3 `ZoomTransform` `{k, x, y}`. -/
structure ZoomTransform where
  k : ℚ
  x : ℚ
  y : ℚ
deriving DecidableEq

/-- d3 `transform.applyX(px) = px * k + x`. -/
def ZoomTransform.applyX (t : ZoomTransform) (px : ℚ) : ℚ :=
  px * t.k + t.x

/-- d3 `transform.applyY(py) = py * k + y`. -/
def ZoomTransform.applyY (t : ZoomTransform) (py : ℚ) : ℚ :=
  py * t.k + t.y

/-- d3 `transform.invertX(px) = (px - x) / k`. -/
def ZoomTransform.invertX (t : ZoomTransform) (px : ℚ) : ℚ :=
  (px - t.x) / t.k

/-- d3 `transform.invertY(py) = (py - y) / k`. -/
def ZoomTransform.invertY (t : ZoomTransform) (py : ℚ) : ℚ :=
  (py - t.y) / t.k

/-- d3 `zoomIdentity`. -/
def zoomIdentity : ZoomTransform :=
  { k := 1, x := 0, y := 0 }

/-- d3 `transform.rescaleX(x)`: copy of the scale with its domain replaced by
`x.range().map(t.invertX).map(x.invert)`, as used for `xScale` in
`components/psychro-chart.tsx` (lines 313–316). -/
def rescaleX (t : ZoomTransform) (s : LinScale) : LinScale :=
  { d0 := s.invertS (t.invertX s.r0), d1 := s.invertS (t.invertX s.r1), r0 := s.r0, r1 := s.r1 }

/-- d3 `transform.rescaleY(y)`, as used for `yScale` in
`components/psychro-chart.tsx` (lines 318–321). -/
def rescaleY (t : ZoomTransform) (s : LinScale) : LinScale :=
  { d0 := s.invertS (t.invertY s.r0), d1 := s.invertS (t.invertY s.r1), r0 := s.r0, r1 := s.r1 }

/-- `xBaseScale` from `components/psychro-chart.tsx` (lines 301–305):
domain = dry-bulb extents, range = `[0, innerWidth]`. -/
def xBaseScale (system : UnitSystem) (innerWidth : ℚ) : LinScale :=
  { d0 := (getChartExtents system).dryBulb.1
    d1 := (getChartExtents system).dryBulb.2
    r0 := 0
    r1 := innerWidth }

/-- `yBaseScale` from `components/psychro-chart.tsx` (lines 307–311):
domain = humidity-ratio extents in display units, range =
`[innerHeight, 0]` (inverted Y axis). -/
def yBaseScale (system : UnitSystem) (innerHeight : ℚ) : LinScale :=
  { d0 := humidityRatioToDisplay system (getChartExtents system).humidityRatio.1
    d1 := humidityRatioToDisplay system (getChartExtents system).humidityRatio.2
    r0 := innerHeight
    r1 := 0 }

/-- The forward physical-to-pixel mapping of the chart: the zoom-rescaled base
scales applied to `(dryBulb, humidityRatioToDisplay w)`. -/
def forwardPoint (system : UnitSystem) (innerWidth innerHeight : ℚ)
    (t : ZoomTransform) (p : ℚ × ℚ) : ℚ × ℚ :=
  ((rescaleX t (xBaseScale system innerWidth)).applyS p.1,
   (rescaleY t (yBaseScale system innerHeight)).applyS
     (humidityRatioToDisplay system p.2))

/-- The inverse pixel-to-physical mapping of the chart, as used by the pointer
handlers (`xScale.invert` / `yScale.invert` followed by
`humidityRatioFromDisplay`). -/
def inversePoint (system : UnitSystem) (innerWidth innerHeight : ℚ)
    (t : ZoomTransform) (px : ℚ × ℚ) : ℚ × ℚ :=
  ((rescaleX t (xBaseScale system innerWidth)).invertS px.1,
   humidityRatioFromDisplay system
     ((rescaleY t (yBaseScale system innerHeight)).invertS px.2))

/-- Modelled from the spec: the clamp of the zoom factor into the configured
`scaleExtent` (the d3-zoom behaviour is configured with `scaleExtent([1, 12])`
in `components/psychro-chart.tsx` line 338; d3-zoom itself is an external
library, so its clamping is modelled from the spec's "k constrained to
[1, 12]"). -/
def clampK (k : ℚ) : ℚ :=
  max 1 (min 12 k)

/-- Modelled from the spec: d3-zoom's default translation constraint (the
"standard translate-extent clamp"), specialised to the configuration of
`components/psychro-chart.tsx` lines 339–346 where both `translateExtent` and
`extent` are the inner plotting rectangle `[[0, 0], [innerWidth,
innerHeight]]`.  The correction `dx0 = t.invertX 0 - 0`,
`dx1 = t.invertX W - W` is applied through `t.translate(·, ·)`; JS `a || b`
takes `b` when `a = 0`. -/
def constrainAmt (d0 d1 : ℚ) : ℚ :=
  if d1 > d0 then (d0 + d1) / 2
  else if min 0 d0 = 0 then max 0 d1 else min 0 d0

/-- Modelled from the spec: the translation constraint applied per axis with
the corrections `dx0 = t.invertX 0 - 0`, `dx1 = t.invertX W - W` (and the
same on Y), committed through `t.translate`. -/
def constrainT (innerWidth innerHeight : ℚ) (t : ZoomTransform) : ZoomTransform :=
  { k := t.k
    x := t.x + t.k * constrainAmt (t.invertX 0 - 0) (t.invertX innerWidth - innerWidth)
    y := t.y + t.k * constrainAmt (t.invertY 0 - 0) (t.invertY innerHeight - innerHeight) }

/-- Modelled from the spec: committing one pan/zoom gesture — the proposed
transform has its zoom factor clamped to the scale extent and its translation
constrained to the translate extent. -/
def commitGesture (innerWidth innerHeight : ℚ) (raw : ZoomTransform) : ZoomTransform :=
  constrainT innerWidth innerHeight { k := clampK raw.k, x := raw.x, y := raw.y }

/-- A sequence of pan/zoom gestures applied from the identity transform; each
gesture proposes an arbitrary new transform from the current one (covering
wheel zoom, drag pan, pinch, programmatic `transform` calls), which is then
clamped and constrained. -/
def applyGestures (innerWidth innerHeight : ℚ)
    (gs : List (ZoomTransform → ZoomTransform)) : ZoomTransform :=
  gs.foldl (fun t g => commitGesture innerWidth innerHeight (g t)) zoomIdentity

/-! ## Helper lemmas -/

/-- The per-sample outcome of a generator loop body: `some pt` iff the
`try`-block ran to its `push` without throwing and without `continue`ing. -/
def sampleEmit {α : Type} (f : ℚ → Except Unit (Option α)) (t : ℚ) : Option α :=
  ((f t).toOption).join

theorem runSamples_eq_filterMap {α : Type} (f : ℚ → Except Unit (Option α)) (ts : List ℚ) :
    runSamples f ts = ts.filterMap (sampleEmit f) := by
  have h : ∀ acc : List α,
      ts.foldl
        (fun acc t =>
          match f t with
          | .ok (some pt) => acc ++ [pt]
          | .ok none => acc
          | .error _ => acc)
        acc
      = acc ++ ts.filterMap (sampleEmit f) := by
    induction ts with
    | nil => intro acc; simp
    | cons t ts ih =>
      intro acc
      simp only [List.foldl_cons, List.filterMap_cons]
      cases hf : f t with
      | error e => simp [ih, sampleEmit, hf, Except.toOption]
      | ok v =>
        cases v with
        | none => simp [ih, sampleEmit, hf, Except.toOption]
        | some pt => simp [ih, sampleEmit, hf, Except.toOption]
  simpa [runSamples] using h []

theorem ratFloor_eq_floor (q : ℚ) : ratFloor q = ⌊q⌋ :=
  (Rat.floor_def).symm

theorem mem_sampleSeq_bounds {lo hi step t : ℚ} (hstep : 0 < step)
    (ht : t ∈ sampleSeq lo hi step) : lo ≤ t ∧ t ≤ hi := by
  unfold sampleSeq at ht
  rcases List.mem_map.mp ht with ⟨n, hn, rfl⟩
  rw [List.mem_range, ratFloor_eq_floor] at hn
  by_cases hle : lo ≤ hi
  · rw [if_pos hle] at hn
    have hr : (0 : ℚ) ≤ (hi - lo) / step := div_nonneg (by linarith) hstep.le
    have hfl : (0 : ℤ) ≤ ⌊(hi - lo) / step⌋ := Int.floor_nonneg.mpr hr
    have hnz : (n : ℤ) ≤ ⌊(hi - lo) / step⌋ := by
      have := Int.toNat_of_nonneg hfl
      omega
    have hq : (n : ℚ) ≤ (hi - lo) / step := by
      have := Int.le_floor.mp hnz
      exact_mod_cast this
    have hmul : (n : ℚ) * step ≤ hi - lo := by
      rw [le_div_iff₀ hstep] at hq
      exact hq
    constructor
    · nlinarith [mul_nonneg (Nat.cast_nonneg (α := ℚ) n) hstep.le]
    · linarith
  · rw [if_neg hle] at hn
    omega

theorem sampleSeq_pairwise {lo hi step : ℚ} (hstep : 0 < step) :
    List.Pairwise (· < ·) (sampleSeq lo hi step) := by
  unfold sampleSeq
  rw [List.pairwise_map]
  exact (List.pairwise_lt_range _).imp fun {m n} h => by
    have : (m : ℚ) < (n : ℚ) := by exact_mod_cast h
    nlinarith

theorem nodup_dedupSort (l : List ℚ) : (dedupSort l).Nodup :=
  (List.perm_insertionSort _ _).nodup_iff.mpr (List.nodup_dedup l)

theorem mem_dedupSort {a : ℚ} {l : List ℚ} : a ∈ dedupSort l ↔ a ∈ l :=
  (List.perm_insertionSort _ _).mem_iff.trans List.mem_dedup

theorem sorted_dedupSort (l : List ℚ) : List.Sorted (· < ·) (dedupSort l) :=
  (List.sorted_insertionSort _ _).lt_of_le (nodup_dedupSort l)

theorem satSample_emit {S : Solver} {pressure t : ℚ} {pt : CurvePoint}
    (h : sampleEmit (satSample S pressure) t = some pt) :
    pt.dryBulb = t ∧ ∃ w, S.GetSatHumRatio t pressure = .ok w ∧ pt.humidityRatio = w := by
  unfold sampleEmit satSample at h
  split at h
  · simp [Except.toOption] at h
  · rename_i w heq
    split at h
    · simp [Except.toOption] at h
    · simp only [Except.toOption, Option.join, Option.some_bind, id_eq, Option.some.injEq] at h
      subst h
      exact ⟨rfl, w, heq, rfl⟩

theorem rhSample_emit {S : Solver} {level pressure t : ℚ} {pt : CurvePoint}
    (h : sampleEmit (rhSample S level pressure) t = some pt) :
    pt.dryBulb = t ∧ ∃ w, S.GetHumRatioFromRelHum t level pressure = .ok w ∧ pt.humidityRatio = w := by
  unfold sampleEmit rhSample at h
  split at h
  · simp [Except.toOption] at h
  · rename_i w heq
    split at h
    · simp [Except.toOption] at h
    · simp only [Except.toOption, Option.join, Option.some_bind, id_eq, Option.some.injEq] at h
      subst h
      exact ⟨rfl, w, heq, rfl⟩

theorem enthalpySample_emit {S : Solver} {enthalpyTarget lo hi w : ℚ} {pt : CurvePoint}
    (h : sampleEmit (enthalpySample S enthalpyTarget lo hi) w = some pt) :
    S.GetTDryBulbFromEnthalpyAndHumRatio enthalpyTarget w = .ok (some pt.dryBulb)
    ∧ lo ≤ pt.dryBulb ∧ pt.dryBulb ≤ hi
    ∧ pt.humidityRatio = some w ∧ pt.enthalpy = some enthalpyTarget := by
  unfold sampleEmit enthalpySample at h
  split at h
  · simp [Except.toOption] at h
  · rename_i tq heq
    split at h
    · rename_i hb
      simp only [Except.toOption, Option.join, Option.some_bind, id_eq, Option.some.injEq] at h
      subst h
      exact ⟨heq, hb.1, hb.2, rfl, rfl⟩
    · simp [Except.toOption] at h
  · simp [Except.toOption] at h

theorem wetBulbSample_emit {S : Solver} {wetBulbTarget pressure t : ℚ} {pt : CurvePoint}
    (h : sampleEmit (wetBulbSample S wetBulbTarget pressure) t = some pt) :
    pt.dryBulb = t ∧ ∃ wq, S.GetHumRatioFromTWetBulb t wetBulbTarget pressure = .ok (some wq)
      ∧ pt.humidityRatio = some wq := by
  unfold sampleEmit wetBulbSample at h
  split at h
  · simp [Except.toOption] at h
  · simp [Except.toOption] at h
  · rename_i wq heq
    split at h
    · simp [Except.toOption] at h
    · simp only [Except.toOption, Option.join, Option.some_bind, id_eq, Option.some.injEq] at h
      subst h
      exact ⟨rfl, wq, heq, rfl⟩

theorem svSample_emit {S : Solver} {targetVolume pressure tolerance t : ℚ} {pt : CurvePoint}
    (h : sampleEmit (svSample S targetVolume pressure tolerance) t = some pt) :
    ∃ sh w hv, S.GetSatHumRatio t pressure = .ok (some sh) ∧ 0 < sh
      ∧ bisect S t pressure targetVolume tolerance 25 0 sh sh = .ok w
      ∧ 0 < w ∧ w ≤ sh
      ∧ S.GetMoistAirEnthalpy t (some w) = .ok hv
      ∧ pt = { dryBulb := t, humidityRatio := some w, enthalpy := hv } := by
  unfold sampleEmit svSample at h
  split at h
  · simp [Except.toOption] at h
  · simp [Except.toOption] at h
  · rename_i sh heq
    split at h
    · simp [Except.toOption] at h
    · rename_i hsh
      split at h
      · simp [Except.toOption] at h
      · rename_i w heqb
        split at h
        · rename_i hw
          split at h
          · simp [Except.toOption] at h
          · rename_i hv heqh
            simp only [Except.toOption, Option.join, Option.some_bind, id_eq,
              Option.some.injEq] at h
            exact ⟨sh, w, hv, heq, lt_of_not_le hsh, heqb, hw.1, hw.2, heqh, h.symm⟩
        · simp [Except.toOption] at h

theorem svSample_complete {S : Solver} {targetVolume pressure tolerance t sh w : ℚ}
    {hv : Option ℚ}
    (h1 : S.GetSatHumRatio t pressure = .ok (some sh)) (h2 : 0 < sh)
    (h3 : bisect S t pressure targetVolume tolerance 25 0 sh sh = .ok w)
    (h4 : 0 < w) (h5 : w ≤ sh)
    (h6 : S.GetMoistAirEnthalpy t (some w) = .ok hv) :
    sampleEmit (svSample S targetVolume pressure tolerance) t
      = some { dryBulb := t, humidityRatio := some w, enthalpy := hv } := by
  unfold sampleEmit svSample
  rw [h1]
  dsimp only
  rw [if_neg (not_le.mpr h2), h3]
  dsimp only
  rw [if_pos ⟨h4, h5⟩, h6]
  simp [Except.toOption]

theorem bisect_tol {S : Solver} {dryBulb pressure targetVolume tolerance : ℚ} :
    ∀ (n : ℕ) (low high hr w : ℚ),
      bisectHit S dryBulb pressure targetVolume tolerance n low high = true →
      bisect S dryBulb pressure targetVolume tolerance n low high hr = .ok w →
      ∃ vol, S.GetMoistAirVolume dryBulb (some w) pressure = .ok (some vol)
        ∧ |vol - targetVolume| ≤ tolerance := by
  intro n
  induction n with
  | zero => intro low high hr w hhit; simp [bisectHit] at hhit
  | succ n ih =>
    intro low high hr w hhit hrun
    unfold bisectHit at hhit
    unfold bisect at hrun
    dsimp only at hhit hrun
    cases hvol : S.GetMoistAirVolume dryBulb (some ((low + high) / 2)) pressure with
    | error e => rw [hvol] at hhit; simp at hhit
    | ok v =>
      rw [hvol] at hhit hrun
      cases v with
      | none => simp at hhit
      | some v =>
        simp only at hhit hrun
        by_cases htol : |v - targetVolume| ≤ tolerance
        · rw [if_pos htol] at hhit hrun
          cases hrun
          exact ⟨v, hvol, htol⟩
        · rw [if_neg htol] at hhit hrun
          by_cases hgt : v > targetVolume
          · rw [if_pos hgt] at hhit hrun
            exact ih _ _ _ _ hhit hrun
          · rw [if_neg hgt] at hhit hrun
            exact ih _ _ _ _ hhit hrun

/-! ## Concrete solvers for witnesses and counterexamples -/

/-- A solver that returns a non-finite (`NaN`) value — without throwing — from
every operation, as the `throws/NaN` failure contract of the Property Solver
permits. -/
def nanSolver : Solver where
  GetHumRatioFromRelHum _ _ _ := .ok none
  GetHumRatioFromTWetBulb _ _ _ := .ok none
  GetTWetBulbFromHumRatio _ _ _ := .ok none
  GetTDewPointFromHumRatio _ _ _ := .ok none
  GetMoistAirEnthalpy _ _ := .ok none
  GetMoistAirVolume _ _ _ := .ok none
  GetMoistAirDensity _ _ _ := .ok none
  GetVapPresFromHumRatio _ _ := .ok none
  GetSatHumRatio _ _ := .ok none
  GetTDryBulbFromEnthalpyAndHumRatio _ _ := .ok none

/-- A solver whose specific volume is the constant `1` and whose saturation
humidity ratio is the constant `1`. -/
def constVolSolver : Solver where
  GetHumRatioFromRelHum _ _ _ := .ok none
  GetHumRatioFromTWetBulb _ _ _ := .ok none
  GetTWetBulbFromHumRatio _ _ _ := .ok none
  GetTDewPointFromHumRatio _ _ _ := .ok none
  GetMoistAirEnthalpy _ _ := .ok (some 0)
  GetMoistAirVolume _ _ _ := .ok (some 1)
  GetMoistAirDensity _ _ _ := .ok none
  GetVapPresFromHumRatio _ _ := .ok none
  GetSatHumRatio _ _ := .ok (some 1)
  GetTDryBulbFromEnthalpyAndHumRatio _ _ := .ok none

/-- A solver whose specific volume is non-finite (`NaN`) but whose saturation
humidity ratio is the finite constant `1`. -/
def noneVolSolver : Solver where
  GetHumRatioFromRelHum _ _ _ := .ok none
  GetHumRatioFromTWetBulb _ _ _ := .ok none
  GetTWetBulbFromHumRatio _ _ _ := .ok none
  GetTDewPointFromHumRatio _ _ _ := .ok none
  GetMoistAirEnthalpy _ _ := .ok (some 0)
  GetMoistAirVolume _ _ _ := .ok none
  GetMoistAirDensity _ _ _ := .ok none
  GetVapPresFromHumRatio _ _ := .ok none
  GetSatHumRatio _ _ := .ok (some 1)
  GetTDryBulbFromEnthalpyAndHumRatio _ _ := .ok none

/-- A solver whose wet-bulb-to-humidity-ratio operation always succeeds with
the finite value `1/100`. -/
def posWBSolver : Solver where
  GetHumRatioFromRelHum _ _ _ := .ok none
  GetHumRatioFromTWetBulb _ _ _ := .ok (some (1/100))
  GetTWetBulbFromHumRatio _ _ _ := .ok none
  GetTDewPointFromHumRatio _ _ _ := .ok none
  GetMoistAirEnthalpy _ _ := .ok (some 0)
  GetMoistAirVolume _ _ _ := .ok none
  GetMoistAirDensity _ _ _ := .ok none
  GetVapPresFromHumRatio _ _ := .ok none
  GetSatHumRatio _ _ := .ok none
  GetTDryBulbFromEnthalpyAndHumRatio _ _ := .ok none

/-- A solver whose saturation humidity ratio equals the dry-bulb temperature
(a monotone non-decreasing map, as the physics provides). -/
def monoSatSolver : Solver where
  GetHumRatioFromRelHum _ _ _ := .ok none
  GetHumRatioFromTWetBulb _ _ _ := .ok none
  GetTWetBulbFromHumRatio _ _ _ := .ok none
  GetTDewPointFromHumRatio _ _ _ := .ok none
  GetMoistAirEnthalpy _ _ := .ok (some 0)
  GetMoistAirVolume _ _ _ := .ok none
  GetMoistAirDensity _ _ _ := .ok none
  GetVapPresFromHumRatio _ _ := .ok none
  GetSatHumRatio t _ := .ok (some t)
  GetTDryBulbFromEnthalpyAndHumRatio _ _ := .ok none

/-- A solver with the exact linear enthalpy relation
`enthalpy = dryBulb + humidityRatio`, inverted by
`dryBulb = enthalpy - humidityRatio`. -/
def affineSolver : Solver where
  GetHumRatioFromRelHum _ _ _ := .ok none
  GetHumRatioFromTWetBulb _ _ _ := .ok none
  GetTWetBulbFromHumRatio _ _ _ := .ok none
  GetTDewPointFromHumRatio _ _ _ := .ok none
  GetMoistAirEnthalpy t w := .ok (some (t + w.getD 0))
  GetMoistAirVolume _ _ _ := .ok none
  GetMoistAirDensity _ _ _ := .ok none
  GetVapPresFromHumRatio _ _ := .ok none
  GetSatHumRatio _ _ := .ok none
  GetTDryBulbFromEnthalpyAndHumRatio h w := .ok (some (h - w))

/-- A solver on which every operation succeeds with a finite value. -/
def okSolver : Solver where
  GetHumRatioFromRelHum _ _ _ := .ok (some (1/100))
  GetHumRatioFromTWetBulb _ _ _ := .ok (some (1/100))
  GetTWetBulbFromHumRatio _ _ _ := .ok (some 10)
  GetTDewPointFromHumRatio _ _ _ := .ok (some 5)
  GetMoistAirEnthalpy _ _ := .ok (some 50)
  GetMoistAirVolume _ _ _ := .ok (some 1)
  GetMoistAirDensity _ _ _ := .ok (some 1)
  GetVapPresFromHumRatio _ _ := .ok (some 1000)
  GetSatHumRatio _ _ := .ok (some (2/100))
  GetTDryBulbFromEnthalpyAndHumRatio _ _ := .ok (some 20)

/-! ## Claim C1 -/

/-- **C1** (amended): for every solver, unit system, pressure, domain, level
list and step, each curve generator absorbs all per-sample failure: the
returned points are exactly the per-sample `try`-block successes, in sample
order, so a thrown solver error at one (level, sample) pair drops only that
point and no exception escapes; in `generateWetBulbLines`,
`generateSpecificVolumeLines` and `generateEnthalpyLines` every returned
point additionally carries a finite humidity ratio.  (Per the counterexample,
the finiteness guarantee does NOT extend to `generateSaturationCurve` and
`generateRelativeHumidityCurves`, which record a non-finite solver result as
a point.) -/
theorem C1_per_sample_error_absorption (S : Solver) (system : UnitSystem)
    (pressure lo hi step tol : ℚ) (rhLevels enthalpyTargets : List ℚ)
    (wbTargets svTargets : List (Option ℚ)) :
    (generateSaturationCurve S system pressure (lo, hi) step).points
        = (sampleSeq lo hi step).filterMap (sampleEmit (satSample S pressure))
    ∧ (generateRelativeHumidityCurves S system pressure (lo, hi) rhLevels step).map Curve.level
        = rhLevels.map some
    ∧ (∀ c ∈ generateRelativeHumidityCurves S system pressure (lo, hi) rhLevels step,
        ∃ level, c.level = some level
          ∧ c.points = (sampleSeq lo hi step).filterMap (sampleEmit (rhSample S level pressure)))
    ∧ (∀ c ∈ generateWetBulbLines S system pressure (lo, hi) wbTargets step,
        ∀ pt ∈ c.points, pt.humidityRatio.isSome)
    ∧ (∀ c ∈ generateSpecificVolumeLines S system pressure (lo, hi) svTargets step tol,
        ∀ pt ∈ c.points, pt.humidityRatio.isSome)
    ∧ (∀ c ∈ generateEnthalpyLines S system pressure (lo, hi) enthalpyTargets step,
        ∀ pt ∈ c.points, pt.humidityRatio.isSome) := by
  refine ⟨?_, ?_, ?_, ?_, ?_, ?_⟩
  · simp [generateSaturationCurve, runSamples_eq_filterMap]
  · simp [generateRelativeHumidityCurves, List.map_map, Function.comp]
  · intro c hc
    rcases List.mem_map.mp hc with ⟨level, _, rfl⟩
    exact ⟨level, rfl, runSamples_eq_filterMap _ _⟩
  · intro c hc pt hpt
    rcases List.mem_map.mp hc with ⟨target, _, rfl⟩
    cases target with
    | none => simp at hpt
    | some tq =>
      simp only [runSamples_eq_filterMap] at hpt
      rcases List.mem_filterMap.mp hpt with ⟨t, _, hemit⟩
      rcases wetBulbSample_emit hemit with ⟨_, wq, _, hw⟩
      simp [hw]
  · intro c hc pt hpt
    rcases List.mem_map.mp hc with ⟨target, _, rfl⟩
    cases target with
    | none => simp at hpt
    | some tq =>
      dsimp only at hpt
      by_cases htq : tq ≤ 0
      · rw [if_pos htq] at hpt
        simp at hpt
      · rw [if_neg htq] at hpt
        simp only [runSamples_eq_filterMap] at hpt
        rcases List.mem_filterMap.mp hpt with ⟨t, _, hemit⟩
        rcases svSample_emit hemit with ⟨sh, w, hv, _, _, _, _, _, _, hpt'⟩
        simp [hpt']
  · intro c hc pt hpt
    rcases List.mem_map.mp hc with ⟨target, _, rfl⟩
    simp only [runSamples_eq_filterMap] at hpt
    rcases List.mem_filterMap.mp hpt with ⟨t, _, hemit⟩
    rcases enthalpySample_emit hemit with ⟨_, _, _, hw, _⟩
    simp [hw]

/-- **C1** counterexample: with a solver that returns a non-finite saturation
humidity ratio without throwing (permitted by the solver interface, whose
failure mode is "throws/NaN"), `generateSaturationCurve` records points whose
`humidityRatio` is non-finite — the claim's "non-finite result causes the
point to be dropped" and "every point has a finite humidityRatio" both fail. -/
theorem C1_counterexample :
    nanSolver.GetSatHumRatio 0 101325 = .ok none
    ∧ ((generateSaturationCurve nanSolver .si 101325 (0, 1) 1).points.all
        (fun pt => pt.humidityRatio.isSome)) = false := by
  constructor
  · rfl
  · have hsamp : sampleSeq 0 1 1 = [0, 1] := by
      unfold sampleSeq
      rw [if_pos (by norm_num), ratFloor_eq_floor]
      norm_num [List.range_succ]
    have hemit : ∀ t : ℚ, sampleEmit (satSample nanSolver 101325) t
        = some { dryBulb := t, humidityRatio := none, enthalpy := none } := fun t => rfl
    simp only [generateSaturationCurve, runSamples_eq_filterMap, hsamp]
    simp [hemit]

/-! ## Claim C2 -/

/-- With a solver of constant specific volume `v` strictly below the target
and outside tolerance, every bisection step takes the `low := mid` branch, so
the run exhausts its budget and returns `high - (high - low)/2^(n+1)`. -/
theorem bisect_const {S : Solver} {db p target tol v : ℚ}
    (hvol : ∀ w, S.GetMoistAirVolume db w p = .ok (some v))
    (htol : ¬ |v - target| ≤ tol) (hgt : ¬ v > target) :
    ∀ (n : ℕ) (low high hr : ℚ), bisect S db p target tol (n + 1) low high hr
      = .ok (high - (high - low) / 2 ^ (n + 1)) := by
  intro n
  induction n with
  | zero =>
    intro low high hr
    unfold bisect
    dsimp only
    rw [hvol]
    dsimp only
    rw [if_neg htol, if_neg hgt]
    unfold bisect
    congr 1
    ring
  | succ n ih =>
    intro low high hr
    conv_lhs => unfold bisect
    dsimp only
    rw [hvol]
    dsimp only
    rw [if_neg htol, if_neg hgt]
    rw [ih]
    congr 1
    ring

/-- **C2** (amended): a point of a constant-specific-volume curve is within
the configured tolerance of the target *provided its bisection search
terminated through the tolerance test* (`bisectHit`); a point accepted after
the 25-iteration budget runs out carries only the bracket guarantee
`0 < w ≤ satHum` and (per the counterexample) may miss the target by more
than the tolerance. -/
theorem C2_roundtrip_on_tolerance_hit (S : Solver) (system : UnitSystem)
    (pressure lo hi step tol : ℚ) (svTargets : List (Option ℚ)) :
    ∀ c ∈ generateSpecificVolumeLines S system pressure (lo, hi) svTargets step tol,
      ∀ target, c.level = some target →
        ∀ pt ∈ c.points,
          ∀ sh, S.GetSatHumRatio pt.dryBulb pressure = .ok (some sh) →
            bisectHit S pt.dryBulb pressure target tol 25 0 sh = true →
            ∃ w vol, pt.humidityRatio = some w
              ∧ S.GetMoistAirVolume pt.dryBulb (some w) pressure = .ok (some vol)
              ∧ |vol - target| ≤ tol := by
  intro c hc target hlev pt hpt sh hsh hhit
  rcases List.mem_map.mp hc with ⟨v, _, rfl⟩
  cases v with
  | none => dsimp only at hpt; simp at hpt
  | some tv =>
    dsimp only at hlev hpt
    by_cases htv : tv ≤ 0
    · rw [if_pos htv] at hpt
      simp at hpt
    · rw [if_neg htv] at hlev hpt
      simp only [Option.some.injEq] at hlev
      subst hlev
      simp only [runSamples_eq_filterMap] at hpt
      rcases List.mem_filterMap.mp hpt with ⟨t, _, hemit⟩
      rcases svSample_emit hemit with ⟨sh', w, hv, hsat, _, hbis, _, _, _, hpt'⟩
      subst hpt'
      simp only at hsh hhit ⊢
      rw [hsat] at hsh
      simp only [Except.ok.injEq, Option.some.injEq] at hsh
      subst hsh
      rcases bisect_tol 25 0 sh' sh' w hhit hbis with ⟨vol, hvol, htol⟩
      exact ⟨w, vol, rfl, hvol, htol⟩

/-- **C2** counterexample: with a solver of constant specific volume `1`,
target volume `2`, the bisection exhausts its 25-iteration budget, the final
estimate lies in `(0, satHum]` and is emitted, yet the solver volume at the
emitted point misses the target by `1 > 1e-4`. -/
theorem C2_counterexample :
    ∃ c ∈ generateSpecificVolumeLines constVolSolver .si 1 (0, 0) [some 2] 1 (1/10000),
      c.level = some 2
      ∧ ∃ pt ∈ c.points,
          constVolSolver.GetMoistAirVolume pt.dryBulb pt.humidityRatio 1 = .ok (some 1)
          ∧ ¬ (|(1 : ℚ) - 2| ≤ 1/10000) := by
  have htol : ¬ (|(1 : ℚ) - 2| ≤ 1/10000) := by
    rw [show (1 : ℚ) - 2 = -1 by norm_num, abs_neg, abs_one]
    norm_num
  have hbis : bisect constVolSolver 0 1 2 (1/10000) 25 0 1 1
      = .ok (1 - (1 - 0) / 2 ^ 25) :=
    bisect_const (fun _ => rfl) htol (by norm_num) 24 0 1 1
  have hw1 : (0 : ℚ) < 1 - (1 - 0) / 2 ^ 25 := by norm_num
  have hw2 : (1 : ℚ) - (1 - 0) / 2 ^ 25 ≤ 1 := by
    have : (0 : ℚ) < (1 - 0) / 2 ^ 25 := by norm_num
    linarith
  have hemit : sampleEmit (svSample constVolSolver 2 1 (1/10000)) 0
      = some { dryBulb := 0, humidityRatio := some (1 - (1 - 0) / 2 ^ 25), enthalpy := some 0 } :=
    svSample_complete rfl one_pos hbis hw1 hw2 rfl
  have hsamp : sampleSeq 0 0 1 = [0] := by
    unfold sampleSeq
    rw [if_pos le_rfl, ratFloor_eq_floor]
    norm_num [List.range_succ]
  have hout : generateSpecificVolumeLines constVolSolver .si 1 (0, 0) [some 2] 1 (1/10000)
      = [{ id := "sv-" ++ numStr (some 2), label := numStr (some 2), level := some 2,
           points := [{ dryBulb := 0, humidityRatio := some (1 - (1 - 0) / 2 ^ 25),
                        enthalpy := some 0 }] }] := by
    unfold generateSpecificVolumeLines
    simp only [List.map]
    rw [if_neg (by norm_num : ¬ (2 : ℚ) ≤ 0)]
    rw [runSamples_eq_filterMap, hsamp]
    rw [List.filterMap_cons, hemit, List.filterMap_nil]
  rw [hout]
  exact ⟨_, List.mem_singleton_self _, rfl,
    ⟨_, List.mem_singleton_self _, rfl, htol⟩⟩

/-- **C2** witness: with a constant-volume solver matching the target
exactly, the bisection hits the tolerance on its first probe and the emitted
point satisfies the round-trip bound. -/
theorem C2_witness :
    ∃ w vol,
      ({ dryBulb := 0, humidityRatio := some ((0 + 1) / 2), enthalpy := some 0 } : CurvePoint).humidityRatio
          = some w
      ∧ constVolSolver.GetMoistAirVolume
          ({ dryBulb := 0, humidityRatio := some ((0 + 1) / 2), enthalpy := some 0 } : CurvePoint).dryBulb
          (some w) 1 = .ok (some vol)
      ∧ |vol - 1| ≤ 1/10000 := by
  have htol1 : |(1 : ℚ) - 1| ≤ 1/10000 := by
    rw [show (1 : ℚ) - 1 = 0 by norm_num, abs_zero]
    norm_num
  have hbis : bisect constVolSolver 0 1 1 (1/10000) 25 0 1 1 = .ok ((0 + 1) / 2) := by
    unfold bisect
    simp only [constVolSolver]
    rw [if_pos htol1]
  have hhit : bisectHit constVolSolver 0 1 1 (1/10000) 25 0 1 = true := by
    unfold bisectHit
    simp only [constVolSolver]
    rw [if_pos htol1]
  have hemit : sampleEmit (svSample constVolSolver 1 1 (1/10000)) 0
      = some { dryBulb := 0, humidityRatio := some ((0 + 1) / 2), enthalpy := some 0 } :=
    svSample_complete rfl one_pos hbis (by norm_num) (by norm_num) rfl
  have hsamp : sampleSeq 0 0 1 = [0] := by
    unfold sampleSeq
    rw [if_pos le_rfl, ratFloor_eq_floor]
    norm_num [List.range_succ]
  have hout : generateSpecificVolumeLines constVolSolver .si 1 (0, 0) [some 1] 1 (1/10000)
      = [{ id := "sv-" ++ numStr (some 1), label := numStr (some 1), level := some 1,
           points := [{ dryBulb := 0, humidityRatio := some ((0 + 1) / 2), enthalpy := some 0 }] }] := by
    unfold generateSpecificVolumeLines
    simp only [List.map]
    rw [if_neg (by norm_num : ¬ (1 : ℚ) ≤ 0)]
    rw [runSamples_eq_filterMap, hsamp]
    rw [List.filterMap_cons, hemit, List.filterMap_nil]
  refine C2_roundtrip_on_tolerance_hit constVolSolver .si 1 0 0 1 (1/10000) [some 1]
    { id := "sv-" ++ numStr (some 1), label := numStr (some 1), level := some 1,
      points := [{ dryBulb := 0, humidityRatio := some ((0 + 1) / 2), enthalpy := some 0 }] }
    ?_ 1 rfl
    { dryBulb := 0, humidityRatio := some ((0 + 1) / 2), enthalpy := some 0 }
    (List.mem_singleton_self _) 1 rfl hhit
  rw [hout]
  exact List.mem_singleton_self _

/-! ## Claim C3 -/

/-- **C3** (amended): in `generateSpecificVolumeLines`, each sample's humidity
ratio is located by bisection on `[0, satHum]` with a 25-iteration budget and
absolute tolerance against the solver's specific volume, and a point is
emitted for a sample if and only if the search's final estimate lies in
`(0, satHum]`.  A non-finite volume mid-search aborts the search but does NOT
skip the sample: the current best estimate (the saturation humidity ratio
before the first iteration, the last midpoint afterwards) still goes through
the same acceptance test and is emitted if it lies in `(0, satHum]` (see the
counterexample). -/
theorem C3_bisection_emission (S : Solver) (system : UnitSystem)
    (pressure lo hi step tol : ℚ) (svTargets : List (Option ℚ)) :
    ∀ c ∈ generateSpecificVolumeLines S system pressure (lo, hi) svTargets step tol,
      ∀ target, c.level = some target → 0 < target →
        (∀ pt ∈ c.points, ∃ sh w,
          S.GetSatHumRatio pt.dryBulb pressure = .ok (some sh) ∧ 0 < sh
          ∧ bisect S pt.dryBulb pressure target tol 25 0 sh sh = .ok w
          ∧ pt.humidityRatio = some w ∧ 0 < w ∧ w ≤ sh)
        ∧ (∀ t ∈ sampleSeq lo hi step, ∀ sh w hv,
            S.GetSatHumRatio t pressure = .ok (some sh) → 0 < sh →
            bisect S t pressure target tol 25 0 sh sh = .ok w →
            0 < w → w ≤ sh →
            S.GetMoistAirEnthalpy t (some w) = .ok hv →
            ({ dryBulb := t, humidityRatio := some w, enthalpy := hv } : CurvePoint) ∈ c.points) := by
  intro c hc target hlev htarget
  rcases List.mem_map.mp hc with ⟨v, _, rfl⟩
  cases v with
  | none =>
    dsimp only at hlev
    exact absurd hlev (by simp)
  | some tv =>
    dsimp only at hlev ⊢
    by_cases htv : tv ≤ 0
    · rw [if_pos htv] at hlev
      simp only [Option.some.injEq] at hlev
      subst hlev
      exact absurd htarget (not_lt.mpr htv)
    · rw [if_neg htv] at hlev ⊢
      simp only [Option.some.injEq] at hlev
      subst hlev
      constructor
      · intro pt hpt
        simp only [runSamples_eq_filterMap] at hpt
        rcases List.mem_filterMap.mp hpt with ⟨t, _, hemit⟩
        rcases svSample_emit hemit with ⟨sh, w, hv, h1, h2, h3, h4, h5, h6, hpt'⟩
        subst hpt'
        exact ⟨sh, w, h1, h2, h3, rfl, h4, h5⟩
      · intro t ht sh w hv h1 h2 h3 h4 h5 h6
        simp only [runSamples_eq_filterMap]
        exact List.mem_filterMap.mpr ⟨t, ht, svSample_complete h1 h2 h3 h4 h5 h6⟩

/-- **C3** counterexample: the solver returns a non-finite volume on the very
first bisection probe for sample `0`, yet the sample is NOT skipped — the
pre-search estimate (the saturation humidity ratio `1`) passes the
`(0, satHum]` acceptance test and the point `(0, 1)` is emitted.  The claim
says no point is emitted for such a sample. -/
theorem C3_counterexample :
    noneVolSolver.GetMoistAirVolume 0 (some ((0 + 1) / 2)) 1 = .ok none
    ∧ ∃ c ∈ generateSpecificVolumeLines noneVolSolver .si 1 (0, 0) [some (1/2)] 1 (1/10000),
        ∃ pt ∈ c.points, pt.dryBulb = 0 ∧ pt.humidityRatio = some 1 := by
  constructor
  · rfl
  · have hbis : bisect noneVolSolver 0 1 (1/2) (1/10000) 25 0 1 1 = .ok 1 := by
      unfold bisect
      simp only [noneVolSolver]
    have hemit : sampleEmit (svSample noneVolSolver (1/2) 1 (1/10000)) 0
        = some { dryBulb := 0, humidityRatio := some 1, enthalpy := some 0 } :=
      svSample_complete rfl one_pos hbis one_pos le_rfl rfl
    have hsamp : sampleSeq 0 0 1 = [0] := by
      unfold sampleSeq
      rw [if_pos le_rfl, ratFloor_eq_floor]
      norm_num [List.range_succ]
    have hout : generateSpecificVolumeLines noneVolSolver .si 1 (0, 0) [some (1/2)] 1 (1/10000)
        = [{ id := "sv-" ++ numStr (some (1/2)), label := numStr (some (1/2)),
             level := some (1/2),
             points := [{ dryBulb := 0, humidityRatio := some 1, enthalpy := some 0 }] }] := by
      unfold generateSpecificVolumeLines
      simp only [List.map]
      rw [if_neg (by norm_num : ¬ (1/2 : ℚ) ≤ 0)]
      rw [runSamples_eq_filterMap, hsamp]
      rw [List.filterMap_cons, hemit, List.filterMap_nil]
    rw [hout]
    exact ⟨_, List.mem_singleton_self _, _, List.mem_singleton_self _, rfl, rfl⟩

/-- **C3** witness: the emission characterisation applied at a concrete
solver/target on which the bisection succeeds. -/
theorem C3_witness :
    ∃ sh w, constVolSolver.GetSatHumRatio 0 1 = .ok (some sh) ∧ 0 < sh
      ∧ bisect constVolSolver 0 1 1 (1/10000) 25 0 sh sh = .ok w
      ∧ ({ dryBulb := 0, humidityRatio := some ((0 + 1) / 2), enthalpy := some 0 } :
          CurvePoint).humidityRatio = some w
      ∧ 0 < w ∧ w ≤ sh := by
  have htol1 : |(1 : ℚ) - 1| ≤ 1/10000 := by
    rw [show (1 : ℚ) - 1 = 0 by norm_num, abs_zero]
    norm_num
  have hbis : bisect constVolSolver 0 1 1 (1/10000) 25 0 1 1 = .ok ((0 + 1) / 2) := by
    unfold bisect
    simp only [constVolSolver]
    rw [if_pos htol1]
  have hemit : sampleEmit (svSample constVolSolver 1 1 (1/10000)) 0
      = some { dryBulb := 0, humidityRatio := some ((0 + 1) / 2), enthalpy := some 0 } :=
    svSample_complete rfl one_pos hbis (by norm_num) (by norm_num) rfl
  have hsamp : sampleSeq 0 0 1 = [0] := by
    unfold sampleSeq
    rw [if_pos le_rfl, ratFloor_eq_floor]
    norm_num [List.range_succ]
  have hout : generateSpecificVolumeLines constVolSolver .si 1 (0, 0) [some 1] 1 (1/10000)
      = [{ id := "sv-" ++ numStr (some 1), label := numStr (some 1), level := some 1,
           points := [{ dryBulb := 0, humidityRatio := some ((0 + 1) / 2), enthalpy := some 0 }] }] := by
    unfold generateSpecificVolumeLines
    simp only [List.map]
    rw [if_neg (by norm_num : ¬ (1 : ℚ) ≤ 0)]
    rw [runSamples_eq_filterMap, hsamp]
    rw [List.filterMap_cons, hemit, List.filterMap_nil]
  exact (C3_bisection_emission constVolSolver .si 1 0 0 1 (1/10000) [some 1]
    { id := "sv-" ++ numStr (some 1), label := numStr (some 1), level := some 1,
      points := [{ dryBulb := 0, humidityRatio := some ((0 + 1) / 2), enthalpy := some 0 }] }
    (by rw [hout]; exact List.mem_singleton_self _) 1 rfl one_pos).1
    { dryBulb := 0, humidityRatio := some ((0 + 1) / 2), enthalpy := some 0 }
    (List.mem_singleton_self _)

/-! ## Claim C4 -/

/-- **C4** (amended): a NON-FINITE target level short-circuits both
`generateWetBulbLines` and `generateSpecificVolumeLines` to an empty curve
without invoking the solver (the result is the same for every solver); a
non-positive finite target short-circuits `generateSpecificVolumeLines` only —
`generateWetBulbLines` samples non-positive finite targets normally (see the
counterexample). -/
theorem C4_invalid_target_short_circuit (S Sp : Solver) (system : UnitSystem)
    (pressure lo hi step tol : ℚ) (wbTargets svTargets : List (Option ℚ)) (n : ℕ) :
    (wbTargets[n]? = some none →
      (generateWetBulbLines S system pressure (lo, hi) wbTargets step)[n]?
        = (generateWetBulbLines Sp system pressure (lo, hi) wbTargets step)[n]?
      ∧ ∃ c, (generateWetBulbLines S system pressure (lo, hi) wbTargets step)[n]? = some c
          ∧ c.points = [])
    ∧ (∀ v, svTargets[n]? = some v → (v = none ∨ ∃ q, v = some q ∧ q ≤ 0) →
        (generateSpecificVolumeLines S system pressure (lo, hi) svTargets step tol)[n]?
          = (generateSpecificVolumeLines Sp system pressure (lo, hi) svTargets step tol)[n]?
        ∧ ∃ c, (generateSpecificVolumeLines S system pressure (lo, hi) svTargets step tol)[n]? = some c
            ∧ c.points = []) := by
  constructor
  · intro hn
    unfold generateWetBulbLines
    rw [List.getElem?_map, List.getElem?_map, hn]
    exact ⟨rfl, _, rfl, rfl⟩
  · intro v hn hv
    unfold generateSpecificVolumeLines
    rw [List.getElem?_map, List.getElem?_map, hn]
    rcases hv with rfl | ⟨q, rfl, hq⟩
    · exact ⟨rfl, _, rfl, rfl⟩
    · simp only [Option.map_some']
      rw [if_pos hq, if_pos hq]
      exact ⟨rfl, _, rfl, rfl⟩

/-- **C4** counterexample: a finite NON-POSITIVE wet-bulb target (`-1`) is
not short-circuited: `generateWetBulbLines` samples it and (with a solver
that answers) returns a non-empty curve, where the claim requires an empty
curve produced without invoking the solver. -/
theorem C4_counterexample :
    ∃ c ∈ generateWetBulbLines posWBSolver .si 1 (0, 1) [some (-1)] 1,
      c.level = some (-1) ∧ c.points ≠ [] := by
  have hemit : ∀ t : ℚ, sampleEmit (wetBulbSample posWBSolver (-1) 1) t
      = some { dryBulb := t, humidityRatio := some (1/100), enthalpy := some 0 } := fun t => rfl
  have hsamp : sampleSeq (max (-1) 0) 1 1 = [0, 1] := by
    rw [max_eq_right (by norm_num : (-1 : ℚ) ≤ 0)]
    unfold sampleSeq
    rw [if_pos (by norm_num), ratFloor_eq_floor]
    norm_num [List.range_succ]
  have hout : generateWetBulbLines posWBSolver .si 1 (0, 1) [some (-1)] 1
      = [{ id := "tw-" ++ numStr (some (-1)), label := numStr (some (-1)) ++ "°",
           level := some (-1),
           points := [{ dryBulb := 0, humidityRatio := some (1/100), enthalpy := some 0 },
                      { dryBulb := 1, humidityRatio := some (1/100), enthalpy := some 0 }] }] := by
    unfold generateWetBulbLines
    simp only [List.map]
    rw [runSamples_eq_filterMap, hsamp]
    rw [List.filterMap_cons, hemit, List.filterMap_cons, hemit, List.filterMap_nil]
  rw [hout]
  exact ⟨_, List.mem_singleton_self _, rfl, by simp⟩

/-- **C4** witness: a non-finite (`NaN`) wet-bulb target yields an empty
curve, identically for two different solvers. -/
theorem C4_witness :
    (generateWetBulbLines posWBSolver .si 1 (0, 1) [none] 1)[0]?
      = (generateWetBulbLines nanSolver .si 1 (0, 1) [none] 1)[0]?
    ∧ ∃ c, (generateWetBulbLines posWBSolver .si 1 (0, 1) [none] 1)[0]? = some c
        ∧ c.points = [] :=
  (C4_invalid_target_short_circuit posWBSolver nanSolver .si 1 0 1 1 (1/10000)
    [none] [some 0] 0).1 rfl

/-! ## Claim C5 -/

theorem LinScale.invertS_applyS (s : LinScale) (hd : s.d0 ≠ s.d1) (hr : s.r0 ≠ s.r1)
    (v : ℚ) : s.invertS (s.applyS v) = v := by
  have h1 : s.d1 - s.d0 ≠ 0 := sub_ne_zero.mpr (Ne.symm hd)
  have h2 : s.r1 - s.r0 ≠ 0 := sub_ne_zero.mpr (Ne.symm hr)
  unfold LinScale.invertS LinScale.applyS
  field_simp
  ring

theorem rescaleX_dsub (t : ZoomTransform) (s : LinScale) (hk : t.k ≠ 0)
    (h2 : s.r1 - s.r0 ≠ 0) :
    (rescaleX t s).d1 - (rescaleX t s).d0 = (s.d1 - s.d0) / t.k := by
  unfold rescaleX LinScale.invertS ZoomTransform.invertX
  field_simp
  ring

theorem rescaleY_dsub (t : ZoomTransform) (s : LinScale) (hk : t.k ≠ 0)
    (h2 : s.r1 - s.r0 ≠ 0) :
    (rescaleY t s).d1 - (rescaleY t s).d0 = (s.d1 - s.d0) / t.k := by
  unfold rescaleY LinScale.invertS ZoomTransform.invertY
  field_simp
  ring

theorem rescaleX_roundtrip (t : ZoomTransform) (s : LinScale)
    (hd : s.d0 ≠ s.d1) (hr : s.r0 ≠ s.r1) (hk : t.k ≠ 0) (v : ℚ) :
    (rescaleX t s).invertS ((rescaleX t s).applyS v) = v := by
  have h2 : s.r1 - s.r0 ≠ 0 := sub_ne_zero.mpr (Ne.symm hr)
  have hsub : (rescaleX t s).d1 - (rescaleX t s).d0 ≠ 0 := by
    rw [rescaleX_dsub t s hk h2]
    exact div_ne_zero (sub_ne_zero.mpr (Ne.symm hd)) hk
  exact LinScale.invertS_applyS _ (Ne.symm (sub_ne_zero.mp hsub)) hr v

theorem rescaleY_roundtrip (t : ZoomTransform) (s : LinScale)
    (hd : s.d0 ≠ s.d1) (hr : s.r0 ≠ s.r1) (hk : t.k ≠ 0) (v : ℚ) :
    (rescaleY t s).invertS ((rescaleY t s).applyS v) = v := by
  have h2 : s.r1 - s.r0 ≠ 0 := sub_ne_zero.mpr (Ne.symm hr)
  have hsub : (rescaleY t s).d1 - (rescaleY t s).d0 ≠ 0 := by
    rw [rescaleY_dsub t s hk h2]
    exact div_ne_zero (sub_ne_zero.mpr (Ne.symm hd)) hk
  exact LinScale.invertS_applyS _ (Ne.symm (sub_ne_zero.mp hsub)) hr v

theorem humidity_display_roundtrip (system : UnitSystem) (w : ℚ) :
    humidityRatioFromDisplay system (humidityRatioToDisplay system w) = w := by
  cases system <;>
    simp [humidityRatioFromDisplay, humidityRatioToDisplay, mul_div_assoc]

/-- **C5**: for every physical point inside the chart domain and every valid
transform state (`k ∈ [1, 12]`), the pixel-to-physical inverse mapping undoes
the physical-to-pixel forward mapping exactly: the zoom-rescaled linear
scales are inverted by their `invert`, and the `×1000` (SI) / `×7000` (IP)
humidity-ratio display scaling is undone by the corresponding division. -/
theorem C5_inverse_forward (system : UnitSystem) (innerWidth innerHeight : ℚ)
    (t : ZoomTransform) (p : ℚ × ℚ)
    (hW : 0 < innerWidth) (hH : 0 < innerHeight)
    (hk1 : 1 ≤ t.k) (hk12 : t.k ≤ 12)
    (hx1 : (getChartExtents system).dryBulb.1 ≤ p.1)
    (hx2 : p.1 ≤ (getChartExtents system).dryBulb.2)
    (hy1 : (getChartExtents system).humidityRatio.1 ≤ p.2)
    (hy2 : p.2 ≤ (getChartExtents system).humidityRatio.2) :
    inversePoint system innerWidth innerHeight t
      (forwardPoint system innerWidth innerHeight t p) = p := by
  have hk : t.k ≠ 0 := ne_of_gt (lt_of_lt_of_le one_pos hk1)
  have hxd : (xBaseScale system innerWidth).d0 ≠ (xBaseScale system innerWidth).d1 := by
    cases system <;> norm_num [xBaseScale, getChartExtents, DEFAULT_EXTENTS]
  have hxr : (xBaseScale system innerWidth).r0 ≠ (xBaseScale system innerWidth).r1 :=
    ne_of_lt hW
  have hyd : (yBaseScale system innerHeight).d0 ≠ (yBaseScale system innerHeight).d1 := by
    cases system <;>
      simp [yBaseScale, getChartExtents, DEFAULT_EXTENTS, humidityRatioToDisplay]
  have hyr : (yBaseScale system innerHeight).r0 ≠ (yBaseScale system innerHeight).r1 :=
    ne_of_gt hH
  unfold inversePoint forwardPoint
  rw [rescaleX_roundtrip t _ hxd hxr hk, rescaleY_roundtrip t _ hyd hyr hk,
    humidity_display_roundtrip]

/-- **C5** witness: a concrete round trip at zoom `k = 2`. -/
theorem C5_witness :
    inversePoint .si 100 80 { k := 2, x := -5, y := -7 }
      (forwardPoint .si 100 80 { k := 2, x := -5, y := -7 } (10, 1/100)) = (10, 1/100) :=
  C5_inverse_forward .si 100 80 { k := 2, x := -5, y := -7 } (10, 1/100)
    (by norm_num) (by norm_num) (by norm_num) (by norm_num)
    (by norm_num [getChartExtents, DEFAULT_EXTENTS])
    (by norm_num [getChartExtents, DEFAULT_EXTENTS])
    (by norm_num [getChartExtents, DEFAULT_EXTENTS])
    (by norm_num [getChartExtents, DEFAULT_EXTENTS])

/-! ## Claim C6 -/

/-- **C6**: for every curve family and fixed unit system, the level-of-detail
selection is monotone in zoom (`k1 < k2` implies the `k1` level set is a
subset of the `k2` level set), always includes the base set, and is returned
deduplicated in strictly ascending order.  (Determinism is definitional: each
selector is a pure function of the zoom level and unit system.) -/
theorem C6_lod_monotone (system : UnitSystem) (k1 k2 : ℚ) (hk : k1 < k2) :
    ((∀ x ∈ relativeHumidityLevels k1, x ∈ relativeHumidityLevels k2)
      ∧ (∀ x ∈ relativeHumidityBase, x ∈ relativeHumidityLevels k1)
      ∧ (relativeHumidityLevels k1).Sorted (· < ·))
    ∧ ((∀ x ∈ enthalpyValuesLod system k1, x ∈ enthalpyValuesLod system k2)
      ∧ (∀ x ∈ enthalpyBase system, x ∈ enthalpyValuesLod system k1)
      ∧ (enthalpyValuesLod system k1).Sorted (· < ·))
    ∧ ((∀ x ∈ wetBulbValuesLod system k1, x ∈ wetBulbValuesLod system k2)
      ∧ (∀ x ∈ wetBulbBase system, x ∈ wetBulbValuesLod system k1)
      ∧ (wetBulbValuesLod system k1).Sorted (· < ·))
    ∧ ((∀ x ∈ specificVolumeValuesLod system k1, x ∈ specificVolumeValuesLod system k2)
      ∧ (∀ x ∈ specificVolumeBase system, x ∈ specificVolumeValuesLod system k1)
      ∧ (specificVolumeValuesLod system k1).Sorted (· < ·)) := by
  refine ⟨⟨?_, ?_, sorted_dedupSort _⟩, ⟨?_, ?_, sorted_dedupSort _⟩,
    ⟨?_, ?_, sorted_dedupSort _⟩, ⟨?_, ?_, sorted_dedupSort _⟩⟩
  · intro x hx
    rw [relativeHumidityLevels, mem_dedupSort] at hx
    rw [relativeHumidityLevels, mem_dedupSort]
    simp only [List.mem_append] at hx ⊢
    rcases hx with ((h | h) | h) | h
    · exact Or.inl (Or.inl (Or.inl h))
    · split at h
      · next hc => exact Or.inl (Or.inl (Or.inr (by rw [if_pos (lt_trans hc hk)]; exact h)))
      · simp at h
    · split at h
      · next hc => exact Or.inl (Or.inr (by rw [if_pos (lt_trans hc hk)]; exact h))
      · simp at h
    · split at h
      · next hc => exact Or.inr (by rw [if_pos (lt_trans hc hk)]; exact h)
      · simp at h
  · intro x hx
    rw [relativeHumidityLevels, mem_dedupSort]
    simp only [List.mem_append]
    exact Or.inl (Or.inl (Or.inl hx))
  · intro x hx
    rw [enthalpyValuesLod, mem_dedupSort] at hx
    rw [enthalpyValuesLod, mem_dedupSort]
    simp only [List.mem_append] at hx ⊢
    rcases hx with (h | h) | h
    · exact Or.inl (Or.inl h)
    · split at h
      · next hc => exact Or.inl (Or.inr (by rw [if_pos (lt_trans hc hk)]; exact h))
      · simp at h
    · split at h
      · next hc => exact Or.inr (by rw [if_pos (lt_trans hc hk)]; exact h)
      · simp at h
  · intro x hx
    rw [enthalpyValuesLod, mem_dedupSort]
    simp only [List.mem_append]
    exact Or.inl (Or.inl hx)
  · intro x hx
    rw [wetBulbValuesLod, mem_dedupSort] at hx
    rw [wetBulbValuesLod, mem_dedupSort]
    simp only [List.mem_append] at hx ⊢
    rcases hx with (h | h) | h
    · exact Or.inl (Or.inl h)
    · split at h
      · next hc => exact Or.inl (Or.inr (by rw [if_pos (lt_trans hc hk)]; exact h))
      · simp at h
    · split at h
      · next hc => exact Or.inr (by rw [if_pos (lt_trans hc hk)]; exact h)
      · simp at h
  · intro x hx
    rw [wetBulbValuesLod, mem_dedupSort]
    simp only [List.mem_append]
    exact Or.inl (Or.inl hx)
  · intro x hx
    rw [specificVolumeValuesLod, mem_dedupSort] at hx
    rw [specificVolumeValuesLod, mem_dedupSort]
    simp only [List.mem_append] at hx ⊢
    rcases hx with (h | h) | h
    · exact Or.inl (Or.inl h)
    · split at h
      · next hc => exact Or.inl (Or.inr (by rw [if_pos (lt_trans hc hk)]; exact h))
      · simp at h
    · split at h
      · next hc => exact Or.inr (by rw [if_pos (lt_trans hc hk)]; exact h)
      · simp at h
  · intro x hx
    rw [specificVolumeValuesLod, mem_dedupSort]
    simp only [List.mem_append]
    exact Or.inl (Or.inl hx)

/-- **C6** witness: the monotonicity, base-inclusion and ordering facts at the
concrete zoom levels `2 < 4` in SI. -/
theorem C6_witness :
    ((∀ x ∈ relativeHumidityLevels 2, x ∈ relativeHumidityLevels 4)
      ∧ (∀ x ∈ relativeHumidityBase, x ∈ relativeHumidityLevels 2)
      ∧ (relativeHumidityLevels 2).Sorted (· < ·))
    ∧ ((∀ x ∈ enthalpyValuesLod .si 2, x ∈ enthalpyValuesLod .si 4)
      ∧ (∀ x ∈ enthalpyBase .si, x ∈ enthalpyValuesLod .si 2)
      ∧ (enthalpyValuesLod .si 2).Sorted (· < ·))
    ∧ ((∀ x ∈ wetBulbValuesLod .si 2, x ∈ wetBulbValuesLod .si 4)
      ∧ (∀ x ∈ wetBulbBase .si, x ∈ wetBulbValuesLod .si 2)
      ∧ (wetBulbValuesLod .si 2).Sorted (· < ·))
    ∧ ((∀ x ∈ specificVolumeValuesLod .si 2, x ∈ specificVolumeValuesLod .si 4)
      ∧ (∀ x ∈ specificVolumeBase .si, x ∈ specificVolumeValuesLod .si 2)
      ∧ (specificVolumeValuesLod .si 2).Sorted (· < ·)) :=
  C6_lod_monotone .si 2 4 (by norm_num)

/-! ## Claim C7 -/

/-- **C7**: for every solver whose saturation-humidity-ratio operation never
returns a non-finite value and is monotone non-decreasing in dry-bulb (the
property the spec attributes to the underlying physics of the external
solver), `generateSaturationCurve` returns points with strictly increasing
`dryBulb` and non-decreasing (finite) `humidityRatio`, with no sorting — the
order is the sample order. -/
theorem C7_saturation_monotone (S : Solver) (system : UnitSystem)
    (pressure lo hi step : ℚ) (hstep : 0 < step)
    (hfin : ∀ t, S.GetSatHumRatio t pressure ≠ .ok none)
    (hmono : ∀ t tp q qp, t ≤ tp → S.GetSatHumRatio t pressure = .ok (some q) →
      S.GetSatHumRatio tp pressure = .ok (some qp) → q ≤ qp) :
    List.Pairwise (fun a b => a.dryBulb < b.dryBulb)
        (generateSaturationCurve S system pressure (lo, hi) step).points
    ∧ (∀ pt ∈ (generateSaturationCurve S system pressure (lo, hi) step).points,
        pt.humidityRatio.isSome)
    ∧ List.Pairwise (fun a b => a.humidityRatio.getD 0 ≤ b.humidityRatio.getD 0)
        (generateSaturationCurve S system pressure (lo, hi) step).points := by
  have hpoints : (generateSaturationCurve S system pressure (lo, hi) step).points
      = (sampleSeq lo hi step).filterMap (sampleEmit (satSample S pressure)) := by
    simp [generateSaturationCurve, runSamples_eq_filterMap]
  have hsome : ∀ {t : ℚ} {pt : CurvePoint},
      sampleEmit (satSample S pressure) t = some pt →
      pt.dryBulb = t ∧ ∃ q, S.GetSatHumRatio t pressure = .ok (some q)
        ∧ pt.humidityRatio = some q := by
    intro t pt h
    rcases satSample_emit h with ⟨hd, w, hw, hr⟩
    cases w with
    | none => exact absurd hw (hfin t)
    | some q => exact ⟨hd, q, hw, hr⟩
  refine ⟨?_, ?_, ?_⟩
  · rw [hpoints, List.pairwise_filterMap]
    refine (sampleSeq_pairwise hstep).imp ?_
    intro a b hab pt hpt ptp hptp
    rcases hsome (Option.mem_def.mp hpt) with ⟨hda, _⟩
    rcases hsome (Option.mem_def.mp hptp) with ⟨hdb, _⟩
    rw [hda, hdb]
    exact hab
  · rw [hpoints]
    intro pt hpt
    rcases List.mem_filterMap.mp hpt with ⟨t, _, hemit⟩
    rcases hsome hemit with ⟨_, q, _, hr⟩
    simp [hr]
  · rw [hpoints, List.pairwise_filterMap]
    refine (sampleSeq_pairwise hstep).imp ?_
    intro a b hab pt hpt ptp hptp
    rcases hsome (Option.mem_def.mp hpt) with ⟨_, q, hwa, hra⟩
    rcases hsome (Option.mem_def.mp hptp) with ⟨_, qp, hwb, hrb⟩
    rw [hra, hrb]
    simpa using hmono a b q qp (le_of_lt hab) hwa hwb

/-- **C7** witness: the monotone solver with saturation humidity ratio equal
to the dry-bulb temperature on the SI domain `[0, 2]`, step `1`. -/
theorem C7_witness :
    List.Pairwise (fun a b => a.dryBulb < b.dryBulb)
        (generateSaturationCurve monoSatSolver .si 1 (0, 2) 1).points
    ∧ (∀ pt ∈ (generateSaturationCurve monoSatSolver .si 1 (0, 2) 1).points,
        pt.humidityRatio.isSome)
    ∧ List.Pairwise (fun a b => a.humidityRatio.getD 0 ≤ b.humidityRatio.getD 0)
        (generateSaturationCurve monoSatSolver .si 1 (0, 2) 1).points :=
  C7_saturation_monotone monoSatSolver .si 1 0 2 1 (by norm_num)
    (fun t h => by simp [monoSatSolver] at h)
    (fun t tp q qp hle h1 h2 => by
      simp only [monoSatSolver, Except.ok.injEq, Option.some.injEq] at h1 h2
      subst h1
      subst h2
      exact hle)

/-! ## Claim C8 -/

/-- **C8**: every point of `generateEnthalpyLines` is obtained by iterating
the humidity ratio in fixed `step` increments from `0` up to `0.06`,
computing dry-bulb by the direct analytic inversion
`GetTDryBulbFromEnthalpyAndHumRatio` and keeping the point only if dry-bulb
lies in `[lo, hi]`; the carried `enthalpy` field equals the target exactly,
and — for a solver on which the inversion round-trips within `tol` — the
solver's enthalpy at the point is within `tol` of the target. -/
theorem C8_enthalpy_lines (S : Solver) (system : UnitSystem)
    (pressure lo hi step tol : ℚ) (targets : List ℚ) (hstep : 0 < step)
    (hrt : ∀ h w tq, S.GetTDryBulbFromEnthalpyAndHumRatio h w = .ok (some tq) →
      ∃ hp, S.GetMoistAirEnthalpy tq (some w) = .ok (some hp) ∧ |hp - h| ≤ tol) :
    ∀ c ∈ generateEnthalpyLines S system pressure (lo, hi) targets step,
      ∃ target ∈ targets, c.level = some target
        ∧ ∀ pt ∈ c.points,
            (∃ n : ℕ, pt.humidityRatio = some ((n : ℚ) * step) ∧ (n : ℚ) * step ≤ 6/100)
            ∧ lo ≤ pt.dryBulb ∧ pt.dryBulb ≤ hi
            ∧ pt.enthalpy = some target
            ∧ S.GetTDryBulbFromEnthalpyAndHumRatio target (pt.humidityRatio.getD 0)
                = .ok (some pt.dryBulb)
            ∧ ∃ hp, S.GetMoistAirEnthalpy pt.dryBulb pt.humidityRatio = .ok (some hp)
                ∧ |hp - target| ≤ tol := by
  intro c hc
  rcases List.mem_map.mp hc with ⟨target, htm, rfl⟩
  refine ⟨target, htm, rfl, ?_⟩
  intro pt hpt
  simp only [runSamples_eq_filterMap] at hpt
  rcases List.mem_filterMap.mp hpt with ⟨w, hw, hemit⟩
  rcases enthalpySample_emit hemit with ⟨hinv, hlo, hhi, hhr, hen⟩
  have hbounds := mem_sampleSeq_bounds hstep hw
  rcases List.mem_map.mp hw with ⟨n, _, hwn⟩
  have hwn' : w = (n : ℚ) * step := by rw [← hwn]; ring
  subst hwn'
  refine ⟨⟨n, hhr, by linarith [hbounds.2]⟩, hlo, hhi, hen, ?_, ?_⟩
  · rw [hhr]
    simpa using hinv
  · rw [hhr]
    exact hrt target ((n : ℚ) * step) pt.dryBulb hinv

/-- **C8** witness: the enthalpy-line characterisation at the exactly
invertible linear solver `enthalpy = dryBulb + humidityRatio`. -/
theorem C8_witness :
    ∃ c, c ∈ generateEnthalpyLines affineSolver .si 1 (0, 100) [50] (1/100)
      ∧ ∃ target ∈ [(50 : ℚ)], c.level = some target
        ∧ ∀ pt ∈ c.points,
            (∃ n : ℕ, pt.humidityRatio = some ((n : ℚ) * (1/100)) ∧ (n : ℚ) * (1/100) ≤ 6/100)
            ∧ 0 ≤ pt.dryBulb ∧ pt.dryBulb ≤ 100
            ∧ pt.enthalpy = some target
            ∧ affineSolver.GetTDryBulbFromEnthalpyAndHumRatio target (pt.humidityRatio.getD 0)
                = .ok (some pt.dryBulb)
            ∧ ∃ hp, affineSolver.GetMoistAirEnthalpy pt.dryBulb pt.humidityRatio = .ok (some hp)
                ∧ |hp - target| ≤ 1 := by
  refine ⟨_, List.mem_map_of_mem _ (List.mem_singleton_self 50), ?_⟩
  exact C8_enthalpy_lines affineSolver .si 1 0 100 (1/100) 1 [50] (by norm_num)
    (fun h w tq hinv => by
      simp only [affineSolver, Except.ok.injEq, Option.some.injEq] at hinv
      subst hinv
      refine ⟨h - w + w, by simp [affineSolver], ?_⟩
      rw [show h - w + w - h = 0 by ring, abs_zero]
      norm_num)
    _ (List.mem_map_of_mem _ (List.mem_singleton_self 50))

/-! ## Claim C9 -/

/-- The one-dimensional clamp property of the modelled d3 translation
constraint: for `k ≥ 1` and a positive extent `W`, the corrected translation
lies in `[W(1-k), 0]`, i.e. the visible window stays inside the plotting
rectangle on that axis. -/
theorem constrain_coord {W k x : ℚ} (hW : 0 < W) (hk1 : 1 ≤ k) :
    W * (1 - k) ≤ x + k * constrainAmt ((0 - x) / k - 0) ((W - x) / k - W)
    ∧ x + k * constrainAmt ((0 - x) / k - 0) ((W - x) / k - W) ≤ 0 := by
  have hk0 : (0 : ℚ) < k := lt_of_lt_of_le one_pos hk1
  have hkne : k ≠ 0 := ne_of_gt hk0
  set d0 := (0 - x) / k - 0 with hd0
  set d1 := (W - x) / k - W with hd1
  have hd0k : d0 * k = -x := by
    rw [hd0]
    field_simp
  have hd1k : d1 * k = W - x - W * k := by
    rw [hd1]
    field_simp
    ring
  have hle : ¬ d1 > d0 := by
    rw [not_lt]
    have h1 : (d0 - d1) * k = W * k - W := by
      rw [sub_mul, hd0k, hd1k]
      ring
    nlinarith [h1]
  unfold constrainAmt
  rw [if_neg hle]
  by_cases hmin : min 0 d0 = 0
  · rw [if_pos hmin]
    have hd0nn : 0 ≤ d0 := min_eq_left_iff.mp hmin
    have hx0 : x ≤ 0 := by nlinarith [hd0k]
    rcases le_or_lt d1 0 with hd1le | hd1pos
    · rw [max_eq_left hd1le]
      constructor
      · nlinarith [hd1k]
      · simpa using hx0
    · rw [max_eq_right hd1pos.le]
      have heq : x + k * d1 = W * (1 - k) := by
        have h2 : k * d1 = W - x - W * k := by rw [mul_comm]; exact hd1k
        rw [h2]
        ring
      rw [heq]
      exact ⟨le_refl _, by nlinarith⟩
  · rw [if_neg hmin]
    have hd0neg : d0 < 0 := by
      rcases lt_or_le d0 0 with h | h
      · exact h
      · exact absurd (min_eq_left h) hmin
    rw [min_eq_right hd0neg.le]
    have heq : x + k * d0 = 0 := by
      have h2 : k * d0 = -x := by rw [mul_comm]; exact hd0k
      rw [h2]
      ring
    rw [heq]
    exact ⟨by nlinarith, le_refl _⟩

/-- Committing any proposed transform through the scale-extent clamp and the
translate-extent constraint lands inside the invariant region. -/
theorem commitGesture_bounds {W H : ℚ} (hW : 0 < W) (hH : 0 < H) (raw : ZoomTransform) :
    1 ≤ (commitGesture W H raw).k ∧ (commitGesture W H raw).k ≤ 12
    ∧ W * (1 - (commitGesture W H raw).k) ≤ (commitGesture W H raw).x
    ∧ (commitGesture W H raw).x ≤ 0
    ∧ H * (1 - (commitGesture W H raw).k) ≤ (commitGesture W H raw).y
    ∧ (commitGesture W H raw).y ≤ 0 := by
  have hk1 : 1 ≤ clampK raw.k := le_max_left _ _
  have hk12 : clampK raw.k ≤ 12 := max_le (by norm_num) (min_le_left _ _)
  have hx := constrain_coord (W := W) (k := clampK raw.k) (x := raw.x) hW hk1
  have hy := constrain_coord (W := H) (k := clampK raw.k) (x := raw.y) hH hk1
  unfold commitGesture constrainT ZoomTransform.invertX ZoomTransform.invertY
  dsimp only
  exact ⟨hk1, hk12, hx.1, hx.2, hy.1, hy.2⟩

/-- **C9**: for every sequence of pan/zoom gestures applied from the identity
transform, the resulting transform has `k ∈ [1, 12]` and a translation
clamped so the visible window never exceeds the inner plotting rectangle:
`W(1-k) ≤ x ≤ 0` and `H(1-k) ≤ y ≤ 0` (at `k = 1` this forces
`x = y = 0` — no panning into empty space). -/
theorem C9_pan_zoom_clamp (W H : ℚ) (hW : 0 < W) (hH : 0 < H)
    (gs : List (ZoomTransform → ZoomTransform)) :
    1 ≤ (applyGestures W H gs).k ∧ (applyGestures W H gs).k ≤ 12
    ∧ W * (1 - (applyGestures W H gs).k) ≤ (applyGestures W H gs).x
    ∧ (applyGestures W H gs).x ≤ 0
    ∧ H * (1 - (applyGestures W H gs).k) ≤ (applyGestures W H gs).y
    ∧ (applyGestures W H gs).y ≤ 0 := by
  have key : ∀ (l : List (ZoomTransform → ZoomTransform)) (t : ZoomTransform),
      (1 ≤ t.k ∧ t.k ≤ 12 ∧ W * (1 - t.k) ≤ t.x ∧ t.x ≤ 0
        ∧ H * (1 - t.k) ≤ t.y ∧ t.y ≤ 0) →
      (1 ≤ (l.foldl (fun t g => commitGesture W H (g t)) t).k
        ∧ (l.foldl (fun t g => commitGesture W H (g t)) t).k ≤ 12
        ∧ W * (1 - (l.foldl (fun t g => commitGesture W H (g t)) t).k)
            ≤ (l.foldl (fun t g => commitGesture W H (g t)) t).x
        ∧ (l.foldl (fun t g => commitGesture W H (g t)) t).x ≤ 0
        ∧ H * (1 - (l.foldl (fun t g => commitGesture W H (g t)) t).k)
            ≤ (l.foldl (fun t g => commitGesture W H (g t)) t).y
        ∧ (l.foldl (fun t g => commitGesture W H (g t)) t).y ≤ 0) := by
    intro l
    induction l with
    | nil => intro t ht; exact ht
    | cons g l ih =>
      intro t _
      exact ih _ (commitGesture_bounds hW hH (g t))
  have hid : 1 ≤ zoomIdentity.k ∧ zoomIdentity.k ≤ 12
      ∧ W * (1 - zoomIdentity.k) ≤ zoomIdentity.x ∧ zoomIdentity.x ≤ 0
      ∧ H * (1 - zoomIdentity.k) ≤ zoomIdentity.y ∧ zoomIdentity.y ≤ 0 := by
    unfold zoomIdentity
    norm_num
  exact key gs zoomIdentity hid

/-- **C9** witness: one out-of-range gesture proposal on a 200×150 rectangle
is clamped back into the invariant region. -/
theorem C9_witness :
    1 ≤ (applyGestures 200 150 [fun _ => ⟨20, 30, -500⟩]).k
    ∧ (applyGestures 200 150 [fun _ => ⟨20, 30, -500⟩]).k ≤ 12
    ∧ 200 * (1 - (applyGestures 200 150 [fun _ => ⟨20, 30, -500⟩]).k)
        ≤ (applyGestures 200 150 [fun _ => ⟨20, 30, -500⟩]).x
    ∧ (applyGestures 200 150 [fun _ => ⟨20, 30, -500⟩]).x ≤ 0
    ∧ 150 * (1 - (applyGestures 200 150 [fun _ => ⟨20, 30, -500⟩]).k)
        ≤ (applyGestures 200 150 [fun _ => ⟨20, 30, -500⟩]).y
    ∧ (applyGestures 200 150 [fun _ => ⟨20, 30, -500⟩]).y ≤ 0 :=
  C9_pan_zoom_clamp 200 150 (by norm_num) (by norm_num) [fun _ => ⟨20, 30, -500⟩]

/-! ## Claim C10 -/

/-- **C10**: `computePsychrometrics` divides the relative-humidity percentage
by 100 and clamps the fraction to `[0, 1]` before calling the solver; a
non-null result's `relativeHumidity` equals the clamped fraction times 100,
hence lies in `[0, 100]`; inputs below 0 are treated as 0% and above 100 as
100%; and the `humidityRatio` field is exactly the solver's answer for the
clamped fraction. -/
theorem C10_relative_humidity_clamp (S : Solver) (inputs : PsychroInputs)
    (st : PsychroState) (h : computePsychrometrics S inputs = some st) :
    st.relativeHumidity = clampQ (inputs.relativeHumidity / 100) 0 1 * 100
    ∧ 0 ≤ st.relativeHumidity ∧ st.relativeHumidity ≤ 100
    ∧ (inputs.relativeHumidity < 0 → st.relativeHumidity = 0)
    ∧ (100 < inputs.relativeHumidity → st.relativeHumidity = 100)
    ∧ ∃ w, S.GetHumRatioFromRelHum inputs.dryBulb
        (clampQ (inputs.relativeHumidity / 100) 0 1) inputs.pressure = .ok w
      ∧ st.humidityRatio = w := by
  unfold computePsychrometrics at h
  dsimp only at h
  repeat' split at h
  all_goals try exact Option.noConfusion h
  simp only [Option.some.injEq] at h
  subst h
  have h0 : (0 : ℚ) ≤ clampQ (inputs.relativeHumidity / 100) 0 1 :=
    le_min (le_max_right _ _) zero_le_one
  have h1 : clampQ (inputs.relativeHumidity / 100) 0 1 ≤ 1 := min_le_right _ _
  refine ⟨rfl, by nlinarith, by nlinarith, ?_, ?_, _, by assumption, rfl⟩
  · intro hneg
    have hfrac : inputs.relativeHumidity / 100 ≤ 0 := by linarith
    show clampQ (inputs.relativeHumidity / 100) 0 1 * 100 = 0
    unfold clampQ
    rw [max_eq_right hfrac, min_eq_left zero_le_one]
    ring
  · intro hpos
    have hfrac : (1 : ℚ) ≤ inputs.relativeHumidity / 100 := by linarith
    show clampQ (inputs.relativeHumidity / 100) 0 1 * 100 = 100
    unfold clampQ
    rw [max_eq_left (by linarith : (0 : ℚ) ≤ inputs.relativeHumidity / 100),
      min_eq_right hfrac]
    ring

/-- The state `computePsychrometrics` produces from `okSolver` on
`(pressure 1, dry-bulb 26, relative humidity 150 %)`. -/
def okState : PsychroState :=
  { dryBulb := 26
    wetBulb := some 10
    dewPoint := some 5
    relativeHumidity := clampQ (150 / 100) 0 1 * 100
    humidityRatio := some (1/100)
    enthalpy := some 50
    specificVolume := some 1
    density := some 1
    vaporPressure := some 1000
    saturationHumidityRatio := some (2/100) }

/-- **C10** witness: an out-of-range input of 150 % relative humidity is
silently clamped to 100 %. -/
theorem C10_witness :
    okState.relativeHumidity = clampQ ((150 : ℚ) / 100) 0 1 * 100
    ∧ 0 ≤ okState.relativeHumidity ∧ okState.relativeHumidity ≤ 100
    ∧ ((150 : ℚ) < 0 → okState.relativeHumidity = 0)
    ∧ (100 < (150 : ℚ) → okState.relativeHumidity = 100)
    ∧ ∃ w, okSolver.GetHumRatioFromRelHum 26 (clampQ ((150 : ℚ) / 100) 0 1) 1 = .ok w
      ∧ okState.humidityRatio = w :=
  C10_relative_humidity_clamp okSolver { pressure := 1, dryBulb := 26, relativeHumidity := 150 }
    okState rfl
